import Mathlib

/-!
# Reconciliation engine and usage-limit/overflow accounting

A shallow embedding of `app/services/conciliacion_service.py` (class
`ConciliacionService`) together with the repository helpers it relies on
(`app/repositories/tenant_proveedor_repository.py`,
`app/repositories/conciliacion_historial_repository.py`,
`app/repositories/conciliacion_detalle_repository.py`) and the ORM rows of
`app/models/*.py`.

Modelling conventions:
* UUID / integer primary keys become `Nat`; the `DB` state carries a
  `nextId` counter that stands for the id generator.  Timestamps
  (`created_at`, `fecha_lista`) become `Nat` tick counts; the strftime
  rendering of `fecha_lista` is modelled by `toString`.
* Machine integers hold counts bounded by table sizes, far below any
  overflow, so plain `Nat` is used.  The only float in the modelled code is
  `int(limite_rfcs * 0.15)`; for every `limite_rfcs < 2 ^ 53` the IEEE-754
  double computation agrees with the exact value `limite_rfcs * 15 / 100`
  (the relative error of `0.15` and of the product is below 2 ^ (-52), while
  the fractional parts of `3 * L / 20` are multiples of `1 / 20`), so the
  burst ceiling is embedded as exact `Nat` arithmetic.
* Python dicts built by comprehensions (`{k: v for ...}`) overwrite earlier
  keys with later ones; `dictLast` reproduces that last-wins lookup.
* Fallible code (`raise ValueError`, infrastructure exceptions) returns
  `Except String`.  Queries against rows whose uniqueness the schema
  enforces (`proveedores.rfc` is `unique=True`, `(tenant_id, rfc)` is
  `UniqueConstraint` on `tenant_proveedores`) are modelled with `find?`;
  theorems that depend on uniqueness take the corresponding `Nodup`
  hypothesis, mirroring the database constraint.
* The fleet runners catch arbitrary per-tenant exceptions (database
  failures mid-run).  Such infrastructure failures are modelled by an
  injected oracle `fault : Nat → Option String`; `fault t = some msg`
  makes tenant `t`'s reconciliation raise `msg` (spec §7: a failed run is
  an atomic abort).  Likewise `emailFault` models a failing notification.
-/

namespace Conciliacion

/-- Row of `tenant_proveedores` (`app/models/tenant_proveedor.py`): one RFC a
tenant has registered.  `grupo_id`, `fecha_inicio`, `fecha_baja` and
`updated_at` play no part in the claims and are omitted. -/
structure TenantProveedor where
  id : Nat
  tenantId : Nat
  rfc : String
  razonSocial : Option String
  activo : Bool
  createdAt : Nat
deriving Repr, DecidableEq

/-- Row of `planes` (`app/models/plan.py`); `limite_proveedores` is nullable
(`NULL = ilimitado`). -/
structure Plan where
  limiteProveedores : Option Nat
deriving Repr, DecidableEq

/-- Row of `tenants` (`app/models/tenant.py`) with its eagerly-loaded plan. -/
structure Tenant where
  id : Nat
  activo : Bool
  plan : Option Plan
deriving Repr, DecidableEq

/-- Row of `proveedores` (`app/models/proveedor.py`): the SAT blocklist
snapshot.  `rfc` carries `unique=True`; `situacion_contribuyente` and
`fecha_lista` are `nullable=False`. -/
structure Proveedor where
  rfc : String
  situacionContribuyente : String
  fechaLista : Nat
deriving Repr, DecidableEq

/-- Row of `dof_contribuyentes` (`app/models/dof_contribuyente.py`): the DOF
gazette snapshot; `situacion_contribuyente` is `nullable=False`. -/
structure DOFContribuyente where
  rfc : String
  situacionContribuyente : String
deriving Repr, DecidableEq

/-- Row of `conciliacion_historial` (`app/models/conciliacion_historial.py`).
`duracion_ms` (wall-clock time) is not modelled. -/
structure ConciliacionHistorial where
  id : Nat
  tenantId : Nat
  tipoConciliacion : String
  versionSat : String
  rfcsProcesados : Nat
  coincidencias : Nat
  estado : String
deriving Repr, DecidableEq

/-- Row of `resultado_conciliaciones` (`app/models/conciliacion_detalle.py`). -/
structure ConciliacionDetalle where
  conciliacionId : Nat
  rfc : String
  estado : String
deriving Repr, DecidableEq

/-- The database state touched by the reconciliation service. -/
structure DB where
  tenants : List Tenant
  memberships : List TenantProveedor
  proveedores : List Proveedor
  dof : List DOFContribuyente
  historial : List ConciliacionHistorial
  detalles : List ConciliacionDetalle
  nextId : Nat
deriving Repr, DecidableEq

/-- Python's `{k: v for ...}` builds a dict where later pairs overwrite
earlier ones; this is the resulting lookup (last pair with the key wins). -/
def dictLast {α : Type} : List (String × α) → String → Option α
  | [], _ => none
  | p :: resto, k =>
    match dictLast resto k with
    | some v => some v
    | none => if p.1 = k then some p.2 else none

/-- Python's `str.upper`, character-wise uppercasing (structural
reimplementation over the character data so that proofs can evaluate it). -/
def upperString (s : String) : String := ⟨s.data.map Char.toUpper⟩

/-- Python's `str.strip`: drop leading and trailing whitespace.  (Python
also strips `\f`, `\v` and Unicode spaces; RFC payloads are ASCII, where
the two sets agree on the characters that occur.) -/
def trimString (s : String) : String :=
  ⟨((s.data.dropWhile Char.isWhitespace).reverse.dropWhile Char.isWhitespace).reverse⟩

/-- Models `rfc.upper().strip()` — RFC normalisation used throughout the service. -/
def normRfc (s : String) : String := trimString (upperString s)

/-- Python's string comparison: lexicographic on code points. -/
def lexLe : List Char → List Char → Bool
  | [], _ => true
  | _ :: _, [] => false
  | a :: as, b :: bs =>
    if a.toNat < b.toNat then true
    else if b.toNat < a.toNat then false
    else lexLe as bs

/-- Models `a <= b` on Python strings, the order `sorted` uses. -/
def strLe (a b : String) : Prop := lexLe a.data b.data = true

instance : DecidableRel strLe := fun a b => instDecidableEqBool (lexLe a.data b.data) true

/-- Models `len(rfc) in [12, 13]` (`conciliacion_service.py:70`). -/
def rfcValido (s : String) : Bool := s.length == 12 || s.length == 13

/-- Models `limite_rfcs + int(limite_rfcs * 0.15)` (`conciliacion_service.py:90`):
the burst ceiling, 15% above the plan limit (exact-arithmetic embedding of
the float expression, see file header). -/
def limiteBurst (limiteRfcs : Nat) : Nat := limiteRfcs + limiteRfcs * 15 / 100

/-- Models `session.query(TenantProveedor).filter(tenant_id, activo == True).count()`
(`conciliacion_service.py:84-87`): number of active memberships of a tenant. -/
def totalActivosDe (db : DB) (tenantId : Nat) : Nat :=
  (db.memberships.filter (fun m => m.tenantId == tenantId && m.activo)).length

/-- One element of the `proveedores` argument of `agregar_proveedores_batch`:
a dict with `rfc` and optionally `razon_social`. -/
structure ProveedorInput where
  rfc : String
  razonSocial : Option String
deriving Repr, DecidableEq

/-- One element of the result list of `agregar_proveedores_batch`. -/
structure ResultadoRfc where
  rfc : String
  proveedorId : String
  error : Option String
deriving Repr, DecidableEq

/-- The normalised, length-validated RFC list (`conciliacion_service.py:66-71`):
items whose normalised RFC is not 12 or 13 characters long are dropped. -/
def rfcsNormalizados (proveedores : List ProveedorInput) : List String :=
  proveedores.filterMap (fun p =>
    let rfc := normRfc p.rfc
    if rfcValido rfc then some rfc else none)

/-- The `razon_social_map` assignments (`conciliacion_service.py:72-73`): one
pair per valid item whose `razon_social` is truthy (non-`None`, non-empty). -/
def razonSocialPares (proveedores : List ProveedorInput) : List (String × String) :=
  proveedores.filterMap (fun p =>
    let rfc := normRfc p.rfc
    match p.razonSocial with
    | some rs => if rfcValido rfc && rs != "" then some (rfc, rs) else none
    | none => none)

/-- Entry of `proveedores_nuevos_activos` / `proveedores_nuevos_inactivos`
(`conciliacion_service.py:113-125`). -/
structure NuevoProveedor where
  rfc : String
  razonSocial : Option String
  activo : Bool
deriving Repr, DecidableEq

/-- The per-RFC loop of `agregar_proveedores_batch`
(`conciliacion_service.py:102-125`): existing RFCs produce an immediate
"ya existe" result; new RFCs are staged active while the running active
counter is below the burst ceiling, inactive afterwards.  Returns
`(nuevos_activos, nuevos_inactivos, resultados_existentes)`. -/
def clasificarNuevos (existente : String → Option TenantProveedor)
    (razonDe : String → Option String) (lb : Nat) :
    List String → Nat → List NuevoProveedor × List NuevoProveedor × List ResultadoRfc
  | [], _ => ([], [], [])
  | rfc :: resto, totalActivos =>
    match existente rfc with
    | some rel =>
      let r := clasificarNuevos existente razonDe lb resto totalActivos
      (r.1, r.2.1, ⟨rfc, toString rel.id, some ("El RFC " ++ rfc ++ " ya existe")⟩ :: r.2.2)
    | none =>
      if totalActivos < lb then
        let r := clasificarNuevos existente razonDe lb resto (totalActivos + 1)
        (⟨rfc, razonDe rfc, true⟩ :: r.1, r.2.1, r.2.2)
      else
        let r := clasificarNuevos existente razonDe lb resto totalActivos
        (r.1, ⟨rfc, razonDe rfc, false⟩ :: r.2.1, r.2.2)

/-- Models `TenantProveedorRepository.create_relations_batch_with_status`
(`tenant_proveedor_repository.py:262-286`): inserts one row per staged item,
in list order.  Fresh primary keys are modelled by consecutive values of the
id counter; `created_at` defaults to the insertion instant, modelled by the
same strictly increasing counter.  (A database-level unique-constraint
violation on insert is not modelled; the theorems about this function assume
the staged RFCs are new, which the service guarantees by checking
`relaciones_existentes` first.) -/
def crearRelaciones (tenantId : Nat) : Nat → List NuevoProveedor → List TenantProveedor
  | _, [] => []
  | n, nuevo :: resto =>
    ⟨n, tenantId, nuevo.rfc, nuevo.razonSocial, nuevo.activo, n⟩ ::
      crearRelaciones tenantId (n + 1) resto

/-- Models `ConciliacionService.agregar_proveedores_batch`
(`conciliacion_service.py:50-170`).  Invalid RFCs are dropped during
normalisation; an all-invalid batch returns `[]` before the tenant is even
looked up; existing `(tenant, rfc)` pairs are reported as "ya existe" and
left untouched; new RFCs are created active while the active count is below
the burst ceiling and inactive (with the advisory message) afterwards; the
result list is re-ordered to follow the normalised input order. -/
def agregar_proveedores_batch (db : DB) (tenantId : Nat)
    (proveedores : List ProveedorInput) (limiteRfcs : Nat) :
    Except String (List ResultadoRfc × DB) :=
  let rfcsNorm := rfcsNormalizados proveedores
  if rfcsNorm.isEmpty then .ok ([], db)
  else
    match db.tenants.find? (fun t => t.id == tenantId) with
    | none => .error ("Tenant " ++ toString tenantId ++ " no encontrado")
    | some _ =>
      let totalActivos := totalActivosDe db tenantId
      let lb := limiteBurst limiteRfcs
      let existentes :=
        db.memberships.filter (fun m => m.tenantId == tenantId && rfcsNorm.contains m.rfc)
      let relacionesExistentes := fun rfc =>
        dictLast (existentes.map (fun m => (m.rfc, m))) rfc
      let razonDe := fun rfc => dictLast (razonSocialPares proveedores) rfc
      let clas := clasificarNuevos relacionesExistentes razonDe lb rfcsNorm totalActivos
      let nuevos := clas.1 ++ clas.2.1
      let creadas := crearRelaciones tenantId db.nextId nuevos
      let relacionesDict := fun rfc => dictLast (creadas.map (fun m => (m.rfc, m))) rfc
      let resultadosNuevos := nuevos.map (fun nuevo =>
        match relacionesDict nuevo.rfc with
        | some rel =>
          ResultadoRfc.mk nuevo.rfc (toString rel.id)
            (if nuevo.activo then none
             else some "RFC agregado como INACTIVO (límite de burst alcanzado)")
        | none => ResultadoRfc.mk nuevo.rfc "" (some "Error creando relación"))
      let resultados := clas.2.2 ++ resultadosNuevos
      let resultadosDict := fun rfc => dictLast (resultados.map (fun r => (r.rfc, r))) rfc
      let resultadosOrdenados := rfcsNorm.map (fun rfc =>
        (resultadosDict rfc).getD (ResultadoRfc.mk rfc "" (some "RFC no procesado")))
      .ok (resultadosOrdenados,
        { db with
            memberships := db.memberships ++ creadas
            nextId := db.nextId + creadas.length })

/-- Ordering key of the FIFO in-quota query: `order_by(created_at.asc())`. -/
def byCreated (a b : TenantProveedor) : Prop := a.createdAt ≤ b.createdAt

instance : DecidableRel byCreated := fun a b => Nat.decLe a.createdAt b.createdAt

instance : IsTotal TenantProveedor byCreated :=
  ⟨fun a b => Nat.le_total a.createdAt b.createdAt⟩

instance : IsTrans TenantProveedor byCreated :=
  ⟨fun _ _ _ h h' => Nat.le_trans h h'⟩

/-- Models `filter(tenant_id == ..., activo == True)` — a tenant's active
memberships, in table order. -/
def proveedoresActivos (db : DB) (tenantId : Nat) : List TenantProveedor :=
  db.memberships.filter (fun m => m.tenantId == tenantId && m.activo)

/-- The active memberships sorted by `created_at` ascending (oldest first).
SQL leaves the relative order of equal keys unspecified; the embedding picks
insertion sort, and the theorems that depend on the order assume distinct
`created_at` keys, under which every sort agrees. -/
def activosOrdenados (db : DB) (tenantId : Nat) : List TenantProveedor :=
  List.insertionSort byCreated (proveedoresActivos db tenantId)

/-- SQLAlchemy `.limit(x)`: `limit(None)` removes the limit clause,
`limit(n)` keeps the first `n` rows. -/
def aplicarLimite {α : Type} (lim : Option Nat) (l : List α) : List α :=
  match lim with
  | none => l
  | some n => l.take n

/-- Models `limite_rfcs = tenant.plan.limite_proveedores if tenant.plan else 0`
(`conciliacion_service.py:313` and `:465`): no plan resolves to `0`; a plan
with a null (unlimited) `limite_proveedores` resolves to `None`. -/
def resolverLimite (t : Tenant) : Option Nat :=
  match t.plan with
  | some p => p.limiteProveedores
  | none => some 0

/-- The in-quota query of both reconciliation variants
(`conciliacion_service.py:321-331` and `:471-478`): active memberships,
oldest `created_at` first, limited by the resolved plan limit. -/
def seleccionEnCuota (db : DB) (tenantId : Nat) (lim : Option Nat) :
    List TenantProveedor :=
  aplicarLimite lim (activosOrdenados db tenantId)

/-- Models `ConciliacionService._obtener_version_sat` (`conciliacion_service.py:638-659`):
the `fecha_lista` of any one `proveedores` row (the snapshot is
single-version), rendered as a string; "No disponible" when the table is
empty. -/
def obtener_version_sat (db : DB) : String :=
  match db.proveedores.head? with
  | some p => toString p.fechaLista
  | none => "No disponible"

/-- The per-RFC status of the SAT-only reconciliation
(`conciliacion_service.py:337-341`): the outer join's
`situacion if situacion else "No encontrado"` — a missing row or a falsy
(empty) status both yield the sentinel.  (`proveedores.rfc` is unique, so
`find?` is the row lookup.) -/
def situacionSat (db : DB) (rfc : String) : String :=
  match db.proveedores.find? (fun p => p.rfc == rfc) with
  | some p =>
    if p.situacionContribuyente == "" then "No encontrado" else p.situacionContribuyente
  | none => "No encontrado"

/-- The summary dict returned by both reconciliation variants (the fields the
claims touch; percentages, timings and date strings are not modelled). -/
structure ResultadoConciliacion where
  tipoConciliacion : String
  versionSat : String
  rfcsProcesados : Nat
  coincidencias : Nat
  proveedoresNoEncontrados : Nat
  estado : String
  historialId : Nat
deriving Repr, DecidableEq

/-- Models `ConciliacionService.realizar_conciliacion` (`conciliacion_service.py:283-432`):
SAT-only reconciliation of the tenant's in-quota active memberships.
`fault` injects the infrastructure exceptions the real database can raise
mid-run (see the file header); the pure data-path never raises except for a
missing tenant. -/
def realizar_conciliacion (fault : Nat → Option String) (db : DB) (tenantId : Nat)
    (tipoConciliacion : String) : Except String (ResultadoConciliacion × DB) :=
  match fault tenantId with
  | some msg => .error msg
  | none =>
    match db.tenants.find? (fun t => t.id == tenantId) with
    | none => .error ("Tenant " ++ toString tenantId ++ " no encontrado")
    | some tenant =>
      let seleccion := seleccionEnCuota db tenantId (resolverLimite tenant)
      let totalProveedores := seleccion.length
      let versionSat := obtener_version_sat db
      let detallesBase := seleccion.map (fun m => (m.rfc, situacionSat db m.rfc))
      let proveedoresEncontrados :=
        (detallesBase.filter (fun d => d.2 != "No encontrado")).length
      let historialId := db.nextId
      let historial : ConciliacionHistorial :=
        { id := historialId, tenantId := tenantId, tipoConciliacion := tipoConciliacion,
          versionSat := versionSat, rfcsProcesados := totalProveedores,
          coincidencias := proveedoresEncontrados, estado := "completado" }
      let detalles := detallesBase.map (fun d => ConciliacionDetalle.mk historialId d.1 d.2)
      .ok ({ tipoConciliacion := tipoConciliacion, versionSat := versionSat,
             rfcsProcesados := totalProveedores, coincidencias := proveedoresEncontrados,
             proveedoresNoEncontrados := totalProveedores - proveedoresEncontrados,
             estado := "completado", historialId := historialId },
           { db with
               historial := db.historial ++ [historial]
               detalles := db.detalles ++ detalles
               nextId := db.nextId + 1 })

/-- Models `dof_dict` (`conciliacion_service.py:493-501`): the gazette rows whose
RFC is among the selected list, as a last-wins dict keyed by RFC. -/
def dofDict (db : DB) (rfcsList : List String) : String → Option String :=
  dictLast ((db.dof.filter (fun g => rfcsList.contains g.rfc)).map
    (fun g => (g.rfc, g.situacionContribuyente)))

/-- The per-RFC status resolution of the DOF-priority loop
(`conciliacion_service.py:540-558`): the gazette value if the RFC is in the
gazette dict, else the SAT value if in the SAT dict, else the sentinel. -/
def estadoDofSat (dofD provD : String → Option String) (rfc : String) : String :=
  match dofD rfc with
  | some s => s
  | none =>
    match provD rfc with
    | some s => s
    | none => "No encontrado"

/-- Whether the DOF-priority loop counted the RFC into
`proveedores_encontrados` (`conciliacion_service.py:545-555`): membership in
either dict, regardless of the stored value. -/
def encontradoDofSat (dofD provD : String → Option String) (rfc : String) : Bool :=
  (dofD rfc).isSome || (provD rfc).isSome

/-- Models `ConciliacionService.realizar_conciliacion_dof_proveedores`
(`conciliacion_service.py:434-636`): DOF-priority reconciliation — the
gazette is consulted first and only RFCs absent from it are looked up in the
SAT table; RFCs found in neither resolve to the sentinel.  Raises when the
tenant has zero in-quota RFCs. -/
def realizar_conciliacion_dof_proveedores (fault : Nat → Option String) (db : DB)
    (tenantId : Nat) (tipoConciliacion : String) :
    Except String (ResultadoConciliacion × DB) :=
  match fault tenantId with
  | some msg => .error msg
  | none =>
    match db.tenants.find? (fun t => t.id == tenantId) with
    | none => .error ("Tenant " ++ toString tenantId ++ " no encontrado")
    | some tenant =>
      let seleccion := seleccionEnCuota db tenantId (resolverLimite tenant)
      let rfcsList := seleccion.map (fun m => m.rfc)
      if rfcsList.length == 0 then .error "No hay proveedores para conciliar"
      else
        let dofD := dofDict db rfcsList
        let rfcsNoEnDof := rfcsList.filter (fun rfc => (dofD rfc).isNone)
        let provD := dictLast ((db.proveedores.filter
            (fun p => rfcsNoEnDof.contains p.rfc)).map
          (fun p => (p.rfc, p.situacionContribuyente)))
        let totalProveedores := rfcsList.length
        let proveedoresEncontrados :=
          (rfcsList.filter (encontradoDofSat dofD provD)).length
        let versionSat := obtener_version_sat db
        let historialId := db.nextId
        let historial : ConciliacionHistorial :=
          { id := historialId, tenantId := tenantId, tipoConciliacion := tipoConciliacion,
            versionSat := versionSat, rfcsProcesados := totalProveedores,
            coincidencias := proveedoresEncontrados, estado := "completado" }
        let detalles := rfcsList.map (fun rfc =>
          ConciliacionDetalle.mk historialId rfc (estadoDofSat dofD provD rfc))
        .ok ({ tipoConciliacion := tipoConciliacion, versionSat := versionSat,
               rfcsProcesados := totalProveedores, coincidencias := proveedoresEncontrados,
               proveedoresNoEncontrados := totalProveedores - proveedoresEncontrados,
               estado := "completado", historialId := historialId },
             { db with
                 historial := db.historial ++ [historial]
                 detalles := db.detalles ++ detalles
                 nextId := db.nextId + 1 })

/-- Models `ConciliacionService.conciliar_rfcs_especificos`
(`conciliacion_service.py:1094-1171`): reconciliation of an explicit RFC
list (paid excess suppliers).  The list is normalised, deduplicated and
sorted; an empty list raises before anything is written; matching is against
the SAT table only; the new run's id is returned. -/
def conciliar_rfcs_especificos (db : DB) (tenantId : Nat) (rfcs : List String)
    (tipoConciliacion : String) : Except String (Nat × DB) :=
  let rfcsNorm := List.insertionSort strLe (rfcs.map normRfc).dedup
  if rfcsNorm.isEmpty then .error "La lista de RFCs no puede estar vacía"
  else
    let filas := db.proveedores.filter (fun p => rfcsNorm.contains p.rfc)
    let coincidencias := filas.length
    let satD := dictLast (filas.map (fun p => (p.rfc, p.situacionContribuyente)))
    let versionSat := obtener_version_sat db
    let historialId := db.nextId
    let historial : ConciliacionHistorial :=
      { id := historialId, tenantId := tenantId, tipoConciliacion := tipoConciliacion,
        versionSat := versionSat, rfcsProcesados := rfcsNorm.length,
        coincidencias := coincidencias, estado := "completado" }
    let detalles := rfcsNorm.map (fun rfc =>
      ConciliacionDetalle.mk historialId rfc ((satD rfc).getD "No encontrado"))
    .ok (historialId,
      { db with
          historial := db.historial ++ [historial]
          detalles := db.detalles ++ detalles
          nextId := db.nextId + 1 })

/-- Per-tenant entry of the fleet runners' result list
(`conciliacion_service.py:1237-1246` and `:1264-1273`). -/
structure ResultadoTenantItem where
  tenantId : Nat
  tipoConciliacion : String
  versionSat : Option String
  rfcsProcesados : Nat
  coincidencias : Nat
  estado : String
  historialId : Option Nat
deriving Repr, DecidableEq

/-- Aggregate result of the fleet runners (`conciliacion_service.py:1280-1286`). -/
structure ResultadoFlota where
  totalTenants : Nat
  totalProcesados : Nat
  totalExitosos : Nat
  totalFallidos : Nat
  resultados : List ResultadoTenantItem
deriving Repr, DecidableEq

/-- The per-tenant loop shared verbatim by both fleet runners
(`conciliacion_service.py:1326-1392` and `:1207-1273`): tenants are
processed strictly in sequence; a successful reconciliation is committed
(the new `db` is kept) and a best-effort notification is attempted — its
failure is caught and changes nothing but the outbox (last component); an
exception rolls the tenant's transaction back (the `db` from before the
tenant is kept) and records a synthetic failed entry with zero counts,
`estado = "error: <message>"` and a null run id.  Returns
`(resultados, exitosos, fallidos, db, outbox)`. -/
def procesarTenants (conciliar : DB → Nat → Except String (ResultadoConciliacion × DB))
    (tipoError : String) (emailFault : Nat → Option String) :
    List Tenant → DB → List ResultadoTenantItem × Nat × Nat × DB × List Nat
  | [], db => ([], 0, 0, db, [])
  | t :: resto, db =>
    match conciliar db t.id with
    | .ok (r, db1) =>
      let correos := if (emailFault t.id).isNone then [t.id] else []
      let p := procesarTenants conciliar tipoError emailFault resto db1
      (ResultadoTenantItem.mk t.id r.tipoConciliacion (some r.versionSat)
          r.rfcsProcesados r.coincidencias r.estado (some r.historialId) :: p.1,
        p.2.1 + 1, p.2.2.1, p.2.2.2.1, correos ++ p.2.2.2.2)
    | .error e =>
      let p := procesarTenants conciliar tipoError emailFault resto db
      (ResultadoTenantItem.mk t.id tipoError none 0 0 ("error: " ++ e) none :: p.1,
        p.2.1, p.2.2.1 + 1, p.2.2.2.1, p.2.2.2.2)

/-- Models `ConciliacionService.realizar_conciliacion_todos_tenants`
(`conciliacion_service.py:1292-1409`): runs the SAT-only reconciliation for
every active tenant with per-tenant failure isolation.  The last component
is the notification outbox. -/
def realizar_conciliacion_todos_tenants (fault emailFault : Nat → Option String)
    (db : DB) : ResultadoFlota × DB × List Nat :=
  let tenants := db.tenants.filter (fun t => t.activo)
  if tenants.length == 0 then
    (⟨0, 0, 0, 0, []⟩, db, [])
  else
    let p := procesarTenants
      (fun d tid => realizar_conciliacion fault d tid "Automatica")
      "Automatica" emailFault tenants db
    (⟨tenants.length, p.1.length, p.2.1, p.2.2.1, p.1⟩, p.2.2.2.1, p.2.2.2.2)

/-- Models `ConciliacionService.realizar_conciliacion_dof_todos_tenants`
(`conciliacion_service.py:1173-1290`): the DOF-priority fleet runner. -/
def realizar_conciliacion_dof_todos_tenants (fault emailFault : Nat → Option String)
    (db : DB) : ResultadoFlota × DB × List Nat :=
  let tenants := db.tenants.filter (fun t => t.activo)
  if tenants.length == 0 then
    (⟨0, 0, 0, 0, []⟩, db, [])
  else
    let p := procesarTenants
      (fun d tid => realizar_conciliacion_dof_proveedores fault d tid "DOF + SAT")
      "DOF + SAT" emailFault tenants db
    (⟨tenants.length, p.1.length, p.2.1, p.2.2.1, p.1⟩, p.2.2.2.1, p.2.2.2.2)

/-- Return value of `actualizar_estado_operativo_rfc`
(`conciliacion_service.py:1551-1556`); the group name is not modelled. -/
structure ResultadoEstadoRfc where
  rfc : String
  activo : Bool
  mensaje : String
deriving Repr, DecidableEq

/-- Models `ConciliacionService.actualizar_estado_operativo_rfc`
(`conciliacion_service.py:1489-1566`): flips a membership's operational
flag.  Activating a currently-inactive RFC for a tenant that has a plan with
an integer limit recounts the active memberships and raises a validation
error when the count has reached the burst ceiling.  A plan with a null
(unlimited) limit makes the Python burst expression raise `TypeError`
(`None * 0.15`), which the generic handler turns into a rollback and
`return None` — modelled as `.ok none`.  A missing membership also returns
`None`.  Deactivation performs no check. -/
def actualizar_estado_operativo_rfc (db : DB) (tenantId : Nat) (rfc : String)
    (activo : Bool) : Except String (Option (ResultadoEstadoRfc × DB)) :=
  let rfcNorm := normRfc rfc
  match db.memberships.find? (fun m => m.tenantId == tenantId && m.rfc == rfcNorm) with
  | none => .ok none
  | some relation =>
    let actualizar : Except String (Option (ResultadoEstadoRfc × DB)) :=
      .ok (some
        (⟨relation.rfc, activo,
          if activo then "RFC activado exitosamente" else "RFC desactivado exitosamente"⟩,
         { db with
             memberships := db.memberships.map (fun m =>
               if m.id == relation.id then { m with activo := activo } else m) }))
    if activo && !relation.activo then
      match db.tenants.find? (fun t => t.id == tenantId) with
      | none => actualizar
      | some tenant =>
        match tenant.plan with
        | none => actualizar
        | some plan =>
          match plan.limiteProveedores with
          | none => .ok none
          | some limiteRfcs =>
            if limiteBurst limiteRfcs ≤ totalActivosDe db tenantId then
              .error "No se puede activar: sobrepasará el límite de burst permitido"
            else actualizar
    else actualizar

/-- The detail rows a call appended to the database (every operation only
ever appends to `detalles`). -/
def nuevosDetalles (antes despues : DB) : List ConciliacionDetalle :=
  despues.detalles.drop antes.detalles.length

/-- Concrete database for the C8 witness: tenant `1` already holds
(inactive) membership `100` for RFC `ABC1234567890`. -/
def dbC8 : DB :=
  ⟨[⟨1, true, some ⟨some 5⟩⟩], [⟨100, 1, "ABC1234567890", none, false, 4⟩],
   [], [], [], [], 200⟩

/-- Concrete database for the C9 witness, rejection side: tenant `1` has
plan limit `2` (burst ceiling `2`), two active memberships and membership
`12` inactive. -/
def dbC9 : DB :=
  ⟨[⟨1, true, some ⟨some 2⟩⟩],
   [⟨10, 1, "AAA010101AA1", none, true, 0⟩, ⟨11, 1, "AAA010101AA2", none, true, 1⟩,
    ⟨12, 1, "AAA010101AA3", none, false, 2⟩],
   [], [], [], [], 300⟩

/-- Concrete database for the C9 witness, acceptance side: same tenant with
only one active membership, below the burst ceiling. -/
def dbC9b : DB :=
  ⟨[⟨1, true, some ⟨some 2⟩⟩],
   [⟨10, 1, "AAA010101AA1", none, true, 0⟩, ⟨12, 1, "AAA010101AA3", none, false, 2⟩],
   [], [], [], [], 300⟩

/-- Concrete database for the C7 counterexample: tenant `1` has a plan with
a null (unlimited) `limite_proveedores` and one active membership. -/
def dbC7 : DB :=
  ⟨[⟨1, true, some ⟨none⟩⟩], [⟨10, 1, "AAA0101010A1", none, true, 0⟩],
   [], [], [], [], 50⟩

/-- Concrete database for the C7 amended witness: same membership but the
tenant has no plan at all. -/
def dbC7a : DB :=
  ⟨[⟨1, true, none⟩], [⟨10, 1, "AAA0101010A1", none, true, 0⟩],
   [], [], [], [], 50⟩

/-- Concrete inputs for the C6 counterexample: tenant `1`, one SAT row. -/
def dbC6 : DB :=
  ⟨[⟨1, true, some ⟨some 5⟩⟩], [], [⟨"ABC010203AB1", "Definitivo", 7⟩],
   [], [], [], 90⟩

/-- Concrete database for the C4 counterexample: tenant `1` with plan limit
`1`, one active membership, and a gazette row whose status string is the
literal sentinel "No encontrado". -/
def dbC4 : DB :=
  ⟨[⟨1, true, some ⟨some 1⟩⟩], [⟨10, 1, "AAA010101AA1", none, true, 0⟩],
   [], [⟨"AAA010101AA1", "No encontrado"⟩], [], [], 70⟩

/-- Concrete database for the C4 amended witness: tenant `1` with plan
limit `2`, two active memberships, one SAT row and one gazette row with
ordinary statuses. -/
def dbC4b : DB :=
  ⟨[⟨1, true, some ⟨some 2⟩⟩],
   [⟨10, 1, "AAA010101AA1", none, true, 0⟩, ⟨11, 1, "AAA010101AA2", none, true, 1⟩],
   [⟨"AAA010101AA1", "Definitivo", 7⟩], [⟨"AAA010101AA2", "Desvirtuado"⟩], [], [], 70⟩

/-- Concrete database for the C3 witness: one active membership whose RFC
is present in BOTH directories with different statuses (gazette
"Desvirtuado", SAT "Definitivo"). -/
def dbC3 : DB :=
  ⟨[⟨1, true, some ⟨some 1⟩⟩], [⟨10, 1, "AAA010101AA1", none, true, 0⟩],
   [⟨"AAA010101AA1", "Definitivo", 7⟩], [⟨"AAA010101AA1", "Desvirtuado"⟩], [], [], 60⟩

/-- Concrete database for the C2 witness: tenant `1` with plan limit `2`,
three active memberships with distinct creation times (oldest: ids 11, 13)
and one inactive membership. -/
def dbC2 : DB :=
  ⟨[⟨1, true, some ⟨some 2⟩⟩],
   [⟨10, 1, "AAA010101AA1", none, true, 30⟩, ⟨11, 1, "AAA010101AA2", none, true, 5⟩,
    ⟨12, 1, "AAA010101AA3", none, false, 1⟩, ⟨13, 1, "AAA010101AA4", none, true, 20⟩],
   [], [], [], [], 400⟩

/-- Concrete database for the C5 witness: three active tenants. -/
def dbC5 : DB :=
  ⟨[⟨1, true, none⟩, ⟨2, true, none⟩, ⟨3, true, none⟩], [], [], [], [], [], 500⟩

/-- Fault oracle for the C5 witness: tenant `2`'s reconciliation is made to
throw (P7's injected failure). -/
def faultC5 : Nat → Option String :=
  fun t => if t == 2 then some "fallo de base de datos" else none

/-- Spec-side transcription of C1's per-RFC decision rule: the new RFCs are
processed in normalised input order, each receiving the next fresh id; while
the running active count is strictly below the burst ceiling the RFC is
created active (no error message) and the counter increments; afterwards it
is created inactive carrying the burst advisory message. -/
def reglaBurstResultados (lb : Nat) : List String → Nat → Nat → List ResultadoRfc
  | [], _, _ => []
  | rfc :: resto, activos, n =>
    if activos < lb then
      ⟨rfc, toString n, none⟩ :: reglaBurstResultados lb resto (activos + 1) (n + 1)
    else
      ⟨rfc, toString n, some "RFC agregado como INACTIVO (límite de burst alcanzado)"⟩ ::
        reglaBurstResultados lb resto activos (n + 1)

/-- Spec-side staged membership rows under C1's decision rule: one new row
per new RFC, in input order, with consecutive fresh ids and the active flag
decided by the burst rule. -/
def reglaBurstCreadas (tenantId lb : Nat) (razonDe : String → Option String) :
    List String → Nat → Nat → List TenantProveedor
  | [], _, _ => []
  | rfc :: resto, activos, n =>
    if activos < lb then
      ⟨n, tenantId, rfc, razonDe rfc, true, n⟩ ::
        reglaBurstCreadas tenantId lb razonDe resto (activos + 1) (n + 1)
    else
      ⟨n, tenantId, rfc, razonDe rfc, false, n⟩ ::
        reglaBurstCreadas tenantId lb razonDe resto activos (n + 1)

/-- Intermediate characterisation of the batch-add result rows for staged
items: the item's RFC, the stringified consecutive fresh id, and the burst
advisory exactly on inactive items. -/
def resultadosEsperados : Nat → List NuevoProveedor → List ResultadoRfc
  | _, [] => []
  | n, nuevo :: resto =>
    ⟨nuevo.rfc, toString n,
      if nuevo.activo then none
      else some "RFC agregado como INACTIVO (límite de burst alcanzado)"⟩ ::
      resultadosEsperados (n + 1) resto

/-- The staged new items of the batch-add when every RFC is new: the active
prefix followed by the inactive suffix, both in input order. -/
def nuevosEnOrden (razonDe : String → Option String) (k : Nat) (rfcs : List String) :
    List NuevoProveedor :=
  (rfcs.take k).map (fun rfc => ⟨rfc, razonDe rfc, true⟩) ++
    (rfcs.drop k).map (fun rfc => ⟨rfc, razonDe rfc, false⟩)

/-- Concrete database for the C1 witness: one tenant with no memberships. -/
def dbC1 : DB := ⟨[⟨1, true, none⟩], [], [], [], [], [], 100⟩

/-- The C1 scenario input: 24 distinct valid 12-character RFCs. -/
def provsC1 : List ProveedorInput :=
  ["AAAA01010101", "AAAA01010102", "AAAA01010103", "AAAA01010104",
   "AAAA01010105", "AAAA01010106", "AAAA01010107", "AAAA01010108",
   "AAAA01010109", "AAAA01010110", "AAAA01010111", "AAAA01010112",
   "AAAA01010113", "AAAA01010114", "AAAA01010115", "AAAA01010116",
   "AAAA01010117", "AAAA01010118", "AAAA01010119", "AAAA01010120",
   "AAAA01010121", "AAAA01010122", "AAAA01010123", "AAAA01010124"].map
    (fun r => ⟨r, none⟩)

/-! ### Lemmas about the last-wins dict lookup -/

theorem dictLast_eq_none {α : Type} {l : List (String × α)} {k : String} :
    dictLast l k = none ↔ ∀ p ∈ l, p.1 ≠ k := by
  induction l with
  | nil => simp [dictLast]
  | cons p resto ih =>
    simp only [dictLast, List.forall_mem_cons]
    cases h : dictLast resto k with
    | some v =>
      constructor
      · intro hfalse; cases hfalse
      · intro hall
        rw [ih.mpr hall.2] at h
        cases h
    | none =>
      have hresto := ih.mp h
      by_cases hp : p.1 = k
      · simp [hp]
      · simp only [if_neg hp, true_iff, ne_eq]
        exact ⟨hp, hresto⟩

theorem dictLast_mem {α : Type} {l : List (String × α)} {k : String} {v : α}
    (h : dictLast l k = some v) : (k, v) ∈ l := by
  induction l with
  | nil => cases h
  | cons p resto ih =>
    simp only [dictLast] at h
    cases hr : dictLast resto k with
    | some w =>
      rw [hr] at h
      cases h
      exact List.mem_cons_of_mem _ (ih hr)
    | none =>
      rw [hr] at h
      by_cases hp : p.1 = k
      · rw [if_pos hp] at h
        cases h
        cases p
        cases hp
        exact List.mem_cons_self _ _
      · rw [if_neg hp] at h
        cases h

theorem dictLast_ne_none_of_mem {α : Type} {l : List (String × α)} {p : String × α}
    (h : p ∈ l) : dictLast l p.1 ≠ none :=
  fun hn => (dictLast_eq_none.mp hn) p h rfl

theorem dictLast_of_nodup {α : Type} {l : List (String × α)}
    (hn : (l.map Prod.fst).Nodup) {k : String} {v : α} (hm : (k, v) ∈ l) :
    dictLast l k = some v := by
  induction l with
  | nil => cases hm
  | cons p resto ih =>
    simp only [List.map_cons, List.nodup_cons] at hn
    simp only [dictLast]
    cases hm with
    | head =>
      have hnone : dictLast resto k = none := by
        rw [dictLast_eq_none]
        intro q hq hqk
        exact hn.1 (List.mem_map.mpr ⟨q, hq, hqk⟩)
      rw [hnone]
      simp
    | tail _ hm' =>
      rw [ih hn.2 hm']

theorem dictLast_const {α : Type} {l : List (String × α)} {k : String} {v : α}
    (hne : l ≠ []) (hall : ∀ q ∈ l, q = (k, v)) : dictLast l k = some v := by
  induction l with
  | nil => cases hne rfl
  | cons q resto ih =>
    have hq := hall q (List.mem_cons_self _ _)
    subst hq
    simp only [dictLast]
    cases hr : dictLast resto k with
    | some w =>
      have hmem := dictLast_mem hr
      have heq := hall _ (List.mem_cons_of_mem _ hmem)
      injection heq with _ h2
      rw [h2]
    | none => simp

/-! ### Lemmas about RFC normalisation and the batch-add pipeline -/

theorem rfcValido_of_mem_rfcsNormalizados {provs : List ProveedorInput} {r : String}
    (h : r ∈ rfcsNormalizados provs) : rfcValido r = true := by
  simp only [rfcsNormalizados, List.mem_filterMap] at h
  obtain ⟨p, _, hp⟩ := h
  by_cases hv : rfcValido (normRfc p.rfc)
  · simp only [hv, if_true] at hp
    cases hp
    exact hv
  · simp [hv] at hp

theorem rfcsNormalizados_eq_nil {provs : List ProveedorInput} :
    rfcsNormalizados provs = [] ↔ ∀ p ∈ provs, rfcValido (normRfc p.rfc) = false := by
  simp only [rfcsNormalizados, List.filterMap_eq_nil_iff]
  constructor
  · intro h p hp
    have := h p hp
    by_cases hv : rfcValido (normRfc p.rfc)
    · simp [hv] at this
    · simpa using hv
  · intro h p hp
    simp [h p hp]

theorem clasificarNuevos_rfc_mem (existente : String → Option TenantProveedor)
    (razonDe : String → Option String) (lb : Nat) :
    ∀ (rfcs : List String) (a : Nat) (nu : NuevoProveedor),
      nu ∈ (clasificarNuevos existente razonDe lb rfcs a).1 ++
           (clasificarNuevos existente razonDe lb rfcs a).2.1 →
      nu.rfc ∈ rfcs := by
  intro rfcs
  induction rfcs with
  | nil => intro a nu h; simp [clasificarNuevos] at h
  | cons rfc resto ih =>
    intro a nu h
    simp only [clasificarNuevos] at h
    cases he : existente rfc with
    | some rel =>
      rw [he] at h
      exact List.mem_cons_of_mem _ (ih a nu h)
    | none =>
      rw [he] at h
      by_cases hlt : a < lb
      · rw [if_pos hlt] at h
        rcases List.mem_append.mp h with h1 | h2
        · cases h1 with
          | head => exact List.mem_cons_self _ _
          | tail _ h1' =>
            exact List.mem_cons_of_mem _ (ih (a + 1) nu (List.mem_append.mpr (Or.inl h1')))
        · exact List.mem_cons_of_mem _ (ih (a + 1) nu (List.mem_append.mpr (Or.inr h2)))
      · rw [if_neg hlt] at h
        rcases List.mem_append.mp h with h1 | h2
        · exact List.mem_cons_of_mem _ (ih a nu (List.mem_append.mpr (Or.inl h1)))
        · cases h2 with
          | head => exact List.mem_cons_self _ _
          | tail _ h2' =>
            exact List.mem_cons_of_mem _ (ih a nu (List.mem_append.mpr (Or.inr h2')))

theorem crearRelaciones_map_rfc (tenantId : Nat) :
    ∀ (n : Nat) (nuevos : List NuevoProveedor),
      (crearRelaciones tenantId n nuevos).map (fun m => m.rfc) =
        nuevos.map (fun nu => nu.rfc) := by
  intro n nuevos
  induction nuevos generalizing n with
  | nil => rfl
  | cons nu resto ih => simp [crearRelaciones, ih]

theorem mem_map_rfc_of_mem_crearRelaciones {tenantId n : Nat}
    {nuevos : List NuevoProveedor} {m : TenantProveedor}
    (h : m ∈ crearRelaciones tenantId n nuevos) :
    m.rfc ∈ nuevos.map (fun nu => nu.rfc) := by
  rw [← crearRelaciones_map_rfc tenantId n nuevos]
  exact List.mem_map_of_mem _ h

theorem detalles_map_rfc (n : Nat) (g : String → String) (l : List String) :
    (l.map (fun rfc => ConciliacionDetalle.mk n rfc (g rfc))).map (fun d => d.rfc) = l := by
  induction l with
  | nil => rfl
  | cons a l ih => simp only [List.map_cons, ih]

theorem obtener_version_sat_dof (db : DB) (dofs : List DOFContribuyente) :
    obtener_version_sat { db with dof := dofs } = obtener_version_sat db := rfl

theorem rfc_getD_dictLast (res : List ResultadoRfc) (k : String) (e : Option String) :
    ((dictLast (res.map (fun r => (r.rfc, r))) k).getD (ResultadoRfc.mk k "" e)).rfc = k := by
  cases h : dictLast (res.map (fun r => (r.rfc, r))) k with
  | none => rfl
  | some v =>
    have hmem := dictLast_mem h
    simp only [List.mem_map] at hmem
    obtain ⟨r, _, hr⟩ := hmem
    injection hr with h1 h2
    rw [Option.getD_some]
    rw [← h2] at *
    exact h1

/-! ### C10 — invalid RFCs are silently omitted -/

/-- C10: in `agregar_proveedores_batch`, every input item whose RFC, after
upper-casing and trimming, does not have length 12 or 13 is silently
omitted: the result list's RFCs are exactly the valid normalised inputs (so
the invalid item gets neither a success nor an error entry), every
membership of the output database is either pre-existing or carries a valid
normalised RFC (so the invalid item is never created), and a batch in which
every item is invalid returns `[]` for every database — in particular
without validating that the tenant exists. -/
theorem invalid_rfc_silently_dropped :
    (∀ (db : DB) (tenantId : Nat) (provs : List ProveedorInput) (limiteRfcs : Nat)
        (res : List ResultadoRfc) (db' : DB),
        agregar_proveedores_batch db tenantId provs limiteRfcs = .ok (res, db') →
        res.map (fun r => r.rfc) = rfcsNormalizados provs ∧
        ∀ m ∈ db'.memberships, m ∈ db.memberships ∨ m.rfc ∈ rfcsNormalizados provs) ∧
    (∀ (provs : List ProveedorInput) (p : ProveedorInput), p ∈ provs →
        rfcValido (normRfc p.rfc) = false → normRfc p.rfc ∉ rfcsNormalizados provs) ∧
    (∀ (db : DB) (tenantId : Nat) (provs : List ProveedorInput) (limiteRfcs : Nat),
        (∀ p ∈ provs, rfcValido (normRfc p.rfc) = false) →
        agregar_proveedores_batch db tenantId provs limiteRfcs = .ok ([], db)) := by
  refine ⟨?_, ?_, ?_⟩
  · intro db tenantId provs limiteRfcs res db' h
    simp only [agregar_proveedores_batch] at h
    by_cases hemp : (rfcsNormalizados provs).isEmpty
    · rw [if_pos hemp] at h
      injection h with h
      injection h with h1 h2
      subst h1; subst h2
      rw [List.isEmpty_iff] at hemp
      rw [hemp]
      exact ⟨rfl, fun m hm => Or.inl hm⟩
    · rw [if_neg hemp] at h
      cases hT : db.tenants.find? (fun t => t.id == tenantId) with
      | none => rw [hT] at h; cases h
      | some t =>
        rw [hT] at h
        injection h with h
        injection h with h1 h2
        subst h1; subst h2
        constructor
        · rw [List.map_map]
          refine (List.map_congr_left ?_).trans (List.map_id _)
          intro k _
          exact rfc_getD_dictLast _ k _
        · intro m hm
          rcases List.mem_append.mp hm with hold | hnew
          · exact Or.inl hold
          · right
            have hmem := mem_map_rfc_of_mem_crearRelaciones hnew
            simp only [List.mem_map] at hmem
            obtain ⟨nu, hnu, hnurfc⟩ := hmem
            exact hnurfc ▸ clasificarNuevos_rfc_mem _ _ _ _ _ nu hnu
  · intro provs p _ hinval hmem
    have := rfcValido_of_mem_rfcsNormalizados hmem
    rw [hinval] at this
    cases this
  · intro db tenantId provs limiteRfcs hall
    have hnil : rfcsNormalizados provs = [] := rfcsNormalizados_eq_nil.mpr hall
    simp only [agregar_proveedores_batch, hnil, List.isEmpty_nil, if_true]

/-- Witness for C10: a batch whose two items are 5 and 19 characters long
returns `[]` against an empty database whose tenant `7` does not exist. -/
theorem invalid_rfc_silently_dropped_witness :
    agregar_proveedores_batch ⟨[], [], [], [], [], [], 0⟩ 7
        [⟨"corto", none⟩, ⟨"demasiadolargo12345", none⟩] 5 =
      .ok ([], ⟨[], [], [], [], [], [], 0⟩) :=
  invalid_rfc_silently_dropped.2.2 ⟨[], [], [], [], [], [], 0⟩ 7
    [⟨"corto", none⟩, ⟨"demasiadolargo12345", none⟩] 5 (by decide)

/-! ### C8 — idempotent re-add -/

/-- C8: re-adding an RFC already registered to the tenant via
`agregar_proveedores_batch` never creates a second membership; the result
entry reports "ya existe" together with the existing membership's id, and
the database — in particular the existing membership's `activo` flag — is
returned completely unchanged.  `huniq` mirrors the `(tenant_id, rfc)`
unique constraint of `tenant_proveedores`. -/
theorem idempotent_readd (db : DB) (tenantId : Nat) (t : Tenant)
    (m : TenantProveedor) (p : ProveedorInput) (limiteRfcs : Nat)
    (hT : db.tenants.find? (fun t => t.id == tenantId) = some t)
    (hm : m ∈ db.memberships) (hmt : m.tenantId = tenantId)
    (hkey : normRfc p.rfc = m.rfc)
    (hvalid : rfcValido m.rfc = true)
    (huniq : ∀ m' ∈ db.memberships, m'.tenantId = tenantId → m'.rfc = m.rfc → m' = m) :
    agregar_proveedores_batch db tenantId [p] limiteRfcs =
      .ok ([⟨m.rfc, toString m.id, some ("El RFC " ++ m.rfc ++ " ya existe")⟩], db) := by
  have hnorm : rfcsNormalizados [p] = [m.rfc] := by
    simp [rfcsNormalizados, hkey, hvalid]
  have hlookup :
      dictLast ((db.memberships.filter
          (fun m' => m'.tenantId == tenantId && [m.rfc].contains m'.rfc)).map
        (fun m' => (m'.rfc, m'))) m.rfc = some m := by
    apply dictLast_const
    · intro hnil
      have : m ∈ db.memberships.filter
          (fun m' => m'.tenantId == tenantId && [m.rfc].contains m'.rfc) := by
        rw [List.mem_filter]
        exact ⟨hm, by simp [hmt]⟩
      rw [List.map_eq_nil_iff] at hnil
      rw [hnil] at this
      cases this
    · intro q hq
      simp only [List.mem_map, List.mem_filter] at hq
      obtain ⟨m', ⟨hm'mem, hm'cond⟩, hq'⟩ := hq
      simp only [Bool.and_eq_true, beq_iff_eq] at hm'cond
      have hrfc : m'.rfc = m.rfc := by simpa using hm'cond.2
      have := huniq m' hm'mem hm'cond.1 hrfc
      rw [← hq', this]
  simp only [agregar_proveedores_batch, hnorm, List.isEmpty_cons, if_false, hT,
    clasificarNuevos, hlookup, Bool.false_eq_true]
  simp [crearRelaciones, dictLast]

/-- Witness for C8: re-adding `ABC1234567890` (written lower-case with
surrounding blanks) reports "ya existe" with the existing id `100` and
leaves the database — including the membership's inactive flag — unchanged. -/
theorem idempotent_readd_witness :
    agregar_proveedores_batch dbC8 1 [⟨" abc1234567890 ", none⟩] 5 =
      .ok ([⟨"ABC1234567890", "100", some "El RFC ABC1234567890 ya existe"⟩], dbC8) := by
  have h := idempotent_readd dbC8 1 ⟨1, true, some ⟨some 5⟩⟩
    ⟨100, 1, "ABC1234567890", none, false, 4⟩ ⟨" abc1234567890 ", none⟩ 5
    (by decide) (by decide) rfl (by decide) (by decide) (by decide)
  exact h

/-! ### C9 — re-activation burst check -/

/-- C9 (`actualizar_estado_operativo_rfc`): for a membership of a tenant
whose plan carries an integer limit, activating a currently-inactive RFC
recomputes the active count and the burst ceiling at call time and is
rejected with a validation error when the count has reached the ceiling
(the membership is not flipped — the call only returns the error); below
the ceiling the RFC is flipped to active.  Deactivation is always
permitted, for every database and membership, with no plan or limit
hypothesis at all. -/
theorem reactivation_burst_check (db : DB) (tenantId : Nat) (rfc : String)
    (rel : TenantProveedor)
    (hrel : db.memberships.find?
        (fun m => m.tenantId == tenantId && m.rfc == normRfc rfc) = some rel) :
    (∀ t p limiteRfcs,
      db.tenants.find? (fun t => t.id == tenantId) = some t →
      t.plan = some p → p.limiteProveedores = some limiteRfcs →
      rel.activo = false →
      (limiteBurst limiteRfcs ≤ totalActivosDe db tenantId →
        actualizar_estado_operativo_rfc db tenantId rfc true =
          .error "No se puede activar: sobrepasará el límite de burst permitido") ∧
      (totalActivosDe db tenantId < limiteBurst limiteRfcs →
        actualizar_estado_operativo_rfc db tenantId rfc true =
          .ok (some (⟨rel.rfc, true, "RFC activado exitosamente"⟩,
            { db with memberships := db.memberships.map (fun m =>
                if m.id == rel.id then { m with activo := true } else m) })))) ∧
    (actualizar_estado_operativo_rfc db tenantId rfc false =
      .ok (some (⟨rel.rfc, false, "RFC desactivado exitosamente"⟩,
        { db with memberships := db.memberships.map (fun m =>
            if m.id == rel.id then { m with activo := false } else m) }))) := by
  constructor
  · intro t p limiteRfcs hT hplan hlim hinact
    constructor
    · intro hcount
      simp only [actualizar_estado_operativo_rfc, hrel, hinact, hT, hplan, hlim,
        Bool.not_false, Bool.and_true, if_pos hcount, if_true]
    · intro hcount
      have : ¬ limiteBurst limiteRfcs ≤ totalActivosDe db tenantId :=
        Nat.not_le.mpr hcount
      simp only [actualizar_estado_operativo_rfc, hrel, hinact, hT, hplan, hlim,
        Bool.not_false, Bool.and_true, if_neg this, if_true]
  · simp only [actualizar_estado_operativo_rfc, hrel, Bool.false_and, Bool.and_eq_true,
      Bool.not_eq_true']
    rfl

/-- Witness for C9: at the ceiling the activation is rejected, below it the
flag flips to active, and deactivation succeeds with no check. -/
theorem reactivation_burst_check_witness :
    actualizar_estado_operativo_rfc dbC9 1 "AAA010101AA3" true =
      .error "No se puede activar: sobrepasará el límite de burst permitido" ∧
    actualizar_estado_operativo_rfc dbC9b 1 "AAA010101AA3" true =
      .ok (some (⟨"AAA010101AA3", true, "RFC activado exitosamente"⟩,
        { dbC9b with memberships := dbC9b.memberships.map (fun m =>
            if m.id == 12 then { m with activo := true } else m) })) ∧
    actualizar_estado_operativo_rfc dbC9 1 "AAA010101AA2" false =
      .ok (some (⟨"AAA010101AA2", false, "RFC desactivado exitosamente"⟩,
        { dbC9 with memberships := dbC9.memberships.map (fun m =>
            if m.id == 11 then { m with activo := false } else m) })) := by
  refine ⟨?_, ?_, ?_⟩
  · exact ((reactivation_burst_check dbC9 1 "AAA010101AA3"
      ⟨12, 1, "AAA010101AA3", none, false, 2⟩ (by decide)).1
      ⟨1, true, some ⟨some 2⟩⟩ ⟨some 2⟩ 2 (by decide) rfl rfl rfl).1 (by decide)
  · exact ((reactivation_burst_check dbC9b 1 "AAA010101AA3"
      ⟨12, 1, "AAA010101AA3", none, false, 2⟩ (by decide)).1
      ⟨1, true, some ⟨some 2⟩⟩ ⟨some 2⟩ 2 (by decide) rfl rfl rfl).2 (by decide)
  · exact (reactivation_burst_check dbC9 1 "AAA010101AA2"
      ⟨11, 1, "AAA010101AA2", none, true, 1⟩ (by decide)).2

/-! ### C7 — unlimited/no-plan limit resolution -/

/-- C7 counterexample: the claim says an unlimited (null) plan limit
resolves to `0`, so the run would select zero in-quota RFCs; on the code a
null limit resolves to `None` — the SQL `LIMIT` clause is dropped — and the
run for `dbC7` processes `1` RFC, not `0`. -/
theorem unlimited_limit_counterexample :
    resolverLimite ⟨1, true, some ⟨none⟩⟩ = none ∧
    (realizar_conciliacion (fun _ => none) dbC7 1 "Manual").toOption.map
        (fun p => p.1.rfcsProcesados) = some 1 := by decide

/-- C7, amended: the Reconciliation Engine resolves the plan limit to `0`
(selecting zero RFCs) only when the tenant has **no** plan; when the plan
exists but its limit is null (unlimited), no limit is applied and the run
processes **all** active memberships. -/
theorem unlimited_limit_amended (db : DB) (tenantId : Nat) (t : Tenant) (tipo : String)
    (hT : db.tenants.find? (fun u => u.id == tenantId) = some t) :
    (t.plan = none →
      resolverLimite t = some 0 ∧
      ∃ r db', realizar_conciliacion (fun _ => none) db tenantId tipo = .ok (r, db') ∧
        r.rfcsProcesados = 0 ∧ db'.detalles = db.detalles) ∧
    (∀ p, t.plan = some p → p.limiteProveedores = none →
      resolverLimite t = none ∧
      ∃ r db', realizar_conciliacion (fun _ => none) db tenantId tipo = .ok (r, db') ∧
        r.rfcsProcesados = (proveedoresActivos db tenantId).length ∧
        (db'.detalles.drop db.detalles.length).map (fun d => d.rfc) =
          (activosOrdenados db tenantId).map (fun m => m.rfc)) := by
  constructor
  · intro hplan
    have hres : resolverLimite t = some 0 := by simp [resolverLimite, hplan]
    refine ⟨hres, ?_⟩
    simp only [realizar_conciliacion, hT, hres]
    exact ⟨_, _, rfl, by simp [seleccionEnCuota, aplicarLimite],
      by simp [seleccionEnCuota, aplicarLimite]⟩
  · intro p hplan hlim
    have hres : resolverLimite t = none := by simp [resolverLimite, hplan, hlim]
    refine ⟨hres, ?_⟩
    simp only [realizar_conciliacion, hT, hres]
    refine ⟨_, _, rfl, ?_, ?_⟩
    · simp [seleccionEnCuota, aplicarLimite, activosOrdenados]
    · simp only [seleccionEnCuota, aplicarLimite, List.drop_left, List.map_map]
      rfl

/-- Witness for C7's amended statement, applied to `dbC7a` (no plan — zero
RFCs) and `dbC7` (null limit — all active RFCs). -/
theorem unlimited_limit_amended_witness :
    (resolverLimite ⟨1, true, none⟩ = some 0 ∧
      ∃ r db', realizar_conciliacion (fun _ => none) dbC7a 1 "Manual" = .ok (r, db') ∧
        r.rfcsProcesados = 0 ∧ db'.detalles = dbC7a.detalles) ∧
    (resolverLimite ⟨1, true, some ⟨none⟩⟩ = none ∧
      ∃ r db', realizar_conciliacion (fun _ => none) dbC7 1 "Manual" = .ok (r, db') ∧
        r.rfcsProcesados = (proveedoresActivos dbC7 1).length ∧
        (db'.detalles.drop dbC7.detalles.length).map (fun d => d.rfc) =
          (activosOrdenados dbC7 1).map (fun m => m.rfc)) :=
  ⟨(unlimited_limit_amended dbC7a 1 ⟨1, true, none⟩ "Manual" (by decide)).1 rfl,
   (unlimited_limit_amended dbC7 1 ⟨1, true, some ⟨none⟩⟩ "Manual" (by decide)).2
     ⟨none⟩ rfl rfl⟩

/-! ### C6 — excess-payment reconciliation -/

/-- C6 counterexample: the claim's "exactly one detail row per input RFC (a
fixed 1:1 between the input list and detail rows)" fails on duplicate
inputs — `conciliar_rfcs_especificos` deduplicates after normalisation, so
an input list of length 2 whose items normalise to the same RFC produces a
single detail row. -/
theorem excess_specific_counterexample :
    (conciliar_rfcs_especificos dbC6 1 ["ABC010203AB1", "abc010203ab1"]
        "Excedentes - Pago").toOption.map (fun p => p.2.detalles.length) = some 1 ∧
    (["ABC010203AB1", "abc010203ab1"] : List String).length = 2 := by decide

/-- C6, amended: an empty RFC list raises a `ValueError` (and, the call
returning only the error, writes no run and no detail row); a non-empty
list creates exactly one run and exactly one detail row per **distinct
normalised** input RFC (1:1 with the deduplicated, sorted normalisation of
the input list — not with the raw input list), matches each RFC against the
Supplier Directory only (the gazette table can be replaced arbitrarily
without changing anything but that replacement), resolves unmatched RFCs to
the "No encontrado" sentinel, and returns the new run's id.  `hsatN`
mirrors the unique constraint on `proveedores.rfc`. -/
theorem excess_specific_amended (db : DB) (tenantId : Nat) (rfcs : List String)
    (tipo : String)
    (hsatN : (db.proveedores.map (fun p => p.rfc)).Nodup) :
    (rfcs = [] → conciliar_rfcs_especificos db tenantId rfcs tipo =
      .error "La lista de RFCs no puede estar vacía") ∧
    (rfcs ≠ [] →
      ∃ hid db', conciliar_rfcs_especificos db tenantId rfcs tipo = .ok (hid, db') ∧
        ∃ h, db'.historial = db.historial ++ [h] ∧ h.id = hid ∧
          db'.detalles = db.detalles ++ nuevosDetalles db db' ∧
          (nuevosDetalles db db').map (fun d => d.rfc) =
            List.insertionSort strLe (rfcs.map normRfc).dedup ∧
          ((nuevosDetalles db db').map (fun d => d.rfc)).Nodup ∧
          (∀ r, r ∈ (nuevosDetalles db db').map (fun d => d.rfc) ↔
            r ∈ rfcs.map normRfc) ∧
          h.rfcsProcesados = (nuevosDetalles db db').length ∧
          (∀ d ∈ nuevosDetalles db db',
            (∀ p ∈ db.proveedores, p.rfc ≠ d.rfc) → d.estado = "No encontrado") ∧
          (∀ d ∈ nuevosDetalles db db', ∀ p ∈ db.proveedores, p.rfc = d.rfc →
            d.estado = p.situacionContribuyente)) ∧
    (∀ dofs, conciliar_rfcs_especificos { db with dof := dofs } tenantId rfcs tipo =
      (conciliar_rfcs_especificos db tenantId rfcs tipo).map
        (fun pr => (pr.1, { pr.2 with dof := dofs }))) := by
  refine ⟨?_, ?_, ?_⟩
  · intro hnil
    subst hnil
    rfl
  · intro hne
    have hinner : ¬ (List.insertionSort strLe ((rfcs.map normRfc).dedup)).isEmpty = true := by
      rw [List.isEmpty_iff]
      intro hempty
      have := List.length_insertionSort strLe ((rfcs.map normRfc).dedup)
      rw [hempty] at this
      have hdnil : (rfcs.map normRfc).dedup = [] := by
        cases hd : (rfcs.map normRfc).dedup with
        | nil => rfl
        | cons a as => rw [hd] at this; simp at this
      rw [List.dedup_eq_nil, List.map_eq_nil_iff] at hdnil
      exact hne hdnil
    simp only [conciliar_rfcs_especificos]
    rw [if_neg hinner]
    refine ⟨db.nextId, _, rfl, _, rfl, rfl, ?_, ?_, ?_, ?_, ?_, ?_, ?_⟩
    · simp [nuevosDetalles]
    · simp only [nuevosDetalles, List.drop_left]
      exact detalles_map_rfc _ _ _
    · simp only [nuevosDetalles, List.drop_left, detalles_map_rfc]
      exact ((List.perm_insertionSort strLe _).nodup_iff).mpr (List.nodup_dedup _)
    · intro r
      simp only [nuevosDetalles, List.drop_left, detalles_map_rfc,
        List.mem_insertionSort, List.mem_dedup]
    · simp [nuevosDetalles]
    · intro d hd hno
      simp only [nuevosDetalles, List.drop_left, List.mem_map] at hd
      obtain ⟨rfc, _, rfl⟩ := hd
      have hnone : dictLast ((db.proveedores.filter (fun p =>
          (List.insertionSort strLe ((rfcs.map normRfc).dedup)).contains p.rfc)).map
          (fun p => (p.rfc, p.situacionContribuyente))) rfc = none := by
        rw [dictLast_eq_none]
        intro q hq
        simp only [List.mem_map, List.mem_filter] at hq
        obtain ⟨p, ⟨hp, _⟩, rfl⟩ := hq
        exact hno p hp
      simp only [hnone, Option.getD_none]
    · intro d hd p hp hprfc
      simp only [nuevosDetalles, List.drop_left, List.mem_map] at hd
      obtain ⟨rfc, hrfc, rfl⟩ := hd
      simp only at hprfc
      have hpfil : p ∈ db.proveedores.filter (fun p =>
          (List.insertionSort strLe ((rfcs.map normRfc).dedup)).contains p.rfc) := by
        rw [List.mem_filter]
        refine ⟨hp, ?_⟩
        rw [hprfc]
        simpa using hrfc
      have hkeys : (((db.proveedores.filter (fun p =>
          (List.insertionSort strLe ((rfcs.map normRfc).dedup)).contains p.rfc)).map
          (fun p => (p.rfc, p.situacionContribuyente))).map Prod.fst).Nodup := by
        rw [List.map_map]
        exact List.Nodup.sublist ((List.filter_sublist _).map _) hsatN
      have hpair : (rfc, p.situacionContribuyente) ∈
          (db.proveedores.filter (fun p =>
            (List.insertionSort strLe ((rfcs.map normRfc).dedup)).contains p.rfc)).map
          (fun p => (p.rfc, p.situacionContribuyente)) := by
        rw [List.mem_map]
        exact ⟨p, hpfil, by rw [hprfc]⟩
      have hsome := dictLast_of_nodup hkeys hpair
      simp only [hsome, Option.getD_some]
  · intro dofs
    by_cases hemp : (List.insertionSort strLe ((rfcs.map normRfc).dedup)).isEmpty = true
    · simp [conciliar_rfcs_especificos, hemp, Except.map]
    · simp [conciliar_rfcs_especificos, hemp, Except.map, obtener_version_sat_dof]

/-- Witness for C6's amended statement, applied at `dbC6` with an empty
list and with a three-item list containing a duplicate. -/
theorem excess_specific_amended_witness :
    (([] : List String) = [] → conciliar_rfcs_especificos dbC6 1 [] "Excedentes - Pago" =
      .error "La lista de RFCs no puede estar vacía") ∧
    ((["abc010203ab1", "ABC010203AB1", "ZZZ010203AB1"] : List String) ≠ [] →
      ∃ hid db', conciliar_rfcs_especificos dbC6 1
          ["abc010203ab1", "ABC010203AB1", "ZZZ010203AB1"] "Excedentes - Pago" =
          .ok (hid, db') ∧
        ∃ h, db'.historial = dbC6.historial ++ [h] ∧ h.id = hid ∧
          db'.detalles = dbC6.detalles ++ nuevosDetalles dbC6 db' ∧
          (nuevosDetalles dbC6 db').map (fun d => d.rfc) =
            List.insertionSort strLe
              ((["abc010203ab1", "ABC010203AB1", "ZZZ010203AB1"].map normRfc).dedup) ∧
          ((nuevosDetalles dbC6 db').map (fun d => d.rfc)).Nodup ∧
          (∀ r, r ∈ (nuevosDetalles dbC6 db').map (fun d => d.rfc) ↔
            r ∈ ["abc010203ab1", "ABC010203AB1", "ZZZ010203AB1"].map normRfc) ∧
          h.rfcsProcesados = (nuevosDetalles dbC6 db').length ∧
          (∀ d ∈ nuevosDetalles dbC6 db',
            (∀ p ∈ dbC6.proveedores, p.rfc ≠ d.rfc) → d.estado = "No encontrado") ∧
          (∀ d ∈ nuevosDetalles dbC6 db', ∀ p ∈ dbC6.proveedores, p.rfc = d.rfc →
            d.estado = p.situacionContribuyente)) :=
  ⟨(excess_specific_amended dbC6 1 [] "Excedentes - Pago" (by decide)).1,
   (excess_specific_amended dbC6 1 ["abc010203ab1", "ABC010203AB1", "ZZZ010203AB1"]
      "Excedentes - Pago" (by decide)).2.1⟩

/-! ### Counting lemmas for the detail-completeness invariant -/

theorem dictLast_map_some {β : Type} {l : List β} {key val : β → String}
    {k s : String} (h : dictLast (l.map (fun b => (key b, val b))) k = some s) :
    ∃ b ∈ l, key b = k ∧ val b = s := by
  have hmem := dictLast_mem h
  simp only [List.mem_map] at hmem
  obtain ⟨b, hb, hpair⟩ := hmem
  injection hpair with h1 h2
  exact ⟨b, hb, h1, h2⟩

theorem dictLast_isSome_iff {β : Type} (l : List (String × β)) (k : String) :
    (dictLast l k).isSome = true ↔ ∃ p ∈ l, p.1 = k := by
  rw [Option.isSome_iff_ne_none]
  constructor
  · intro hne
    by_contra hnone
    push_neg at hnone
    exact hne (dictLast_eq_none.mpr hnone)
  · rintro ⟨p, hp, rfl⟩
    exact dictLast_ne_none_of_mem hp

theorem filter_ref_append (old nuevos : List ConciliacionDetalle) (idx : Nat)
    (hfresh : ∀ d ∈ old, d.conciliacionId ≠ idx)
    (hnew : ∀ d ∈ nuevos, d.conciliacionId = idx) :
    (old ++ nuevos).filter (fun d => d.conciliacionId == idx) = nuevos := by
  rw [List.filter_append]
  rw [List.filter_eq_nil_iff.mpr (fun d hd => by simp [hfresh d hd])]
  rw [List.filter_eq_self.mpr (fun d hd => by simp [hnew d hd])]
  rfl

theorem length_filter_map_detalles (n : Nat) (base : List (String × String))
    (q : String → Bool) :
    ((base.map (fun d => ConciliacionDetalle.mk n d.1 d.2)).filter
      (fun d => q d.estado)).length = (base.filter (fun d => q d.2)).length := by
  induction base with
  | nil => rfl
  | cons a base ih => by_cases hq : q a.2 <;> simp [List.filter_cons, hq, ih]

theorem length_filter_map_estado (n : Nat) (rfcs : List String)
    (est : String → String) (q : String → Bool) :
    ((rfcs.map (fun rfc => ConciliacionDetalle.mk n rfc (est rfc))).filter
      (fun d => q d.estado)).length = (rfcs.filter (fun rfc => q (est rfc))).length := by
  induction rfcs with
  | nil => rfl
  | cons a l ih => by_cases hq : q (est a) <;> simp [List.filter_cons, hq, ih]

theorem run_filter_ref {β : Type} (db : DB) (idx : Nat) (l : List β)
    (f est : β → String)
    (hfresh : ∀ d ∈ db.detalles, d.conciliacionId ≠ idx) :
    (db.detalles ++ l.map (fun b => ConciliacionDetalle.mk idx (f b) (est b))).filter
        (fun d => d.conciliacionId == idx) =
      l.map (fun b => ConciliacionDetalle.mk idx (f b) (est b)) :=
  filter_ref_append _ _ _ hfresh (by
    intro d hd
    simp only [List.mem_map] at hd
    obtain ⟨b, _, rfl⟩ := hd
    rfl)

theorem run_filter_sentinel {β : Type} (idx : Nat) (l : List β) (f est : β → String) :
    ((l.map (fun b => ConciliacionDetalle.mk idx (f b) (est b))).filter
        (fun d => d.estado != "No encontrado")).length =
      (l.filter (fun b => est b != "No encontrado")).length := by
  induction l with
  | nil => rfl
  | cons a l ih => by_cases hq : (est a != "No encontrado") = true <;>
      simp [List.filter_cons, hq, ih]

theorem estadoDofSat_ne_sentinel (dofD provD : String → Option String)
    (hdof : ∀ rfc s, dofD rfc = some s → s ≠ "No encontrado")
    (hprov : ∀ rfc s, provD rfc = some s → s ≠ "No encontrado") (rfc : String) :
    (estadoDofSat dofD provD rfc != "No encontrado") =
      encontradoDofSat dofD provD rfc := by
  unfold estadoDofSat encontradoDofSat
  cases hd : dofD rfc with
  | some s => simp [bne_iff_ne, hdof rfc s hd]
  | none =>
    cases hp : provD rfc with
    | some s => simp [bne_iff_ne, hprov rfc s hp]
    | none => simp

theorem length_filter_or_disjoint {β : Type} (p q : β → Bool) :
    ∀ (l : List β), (∀ x ∈ l, ¬(p x = true ∧ q x = true)) →
      (l.filter (fun x => p x || q x)).length =
        (l.filter p).length + (l.filter q).length := by
  intro l
  induction l with
  | nil => intro _; rfl
  | cons b l ih =>
    intro hdisj
    have hrec := ih (fun x hx => hdisj x (List.mem_cons_of_mem _ hx))
    by_cases hp : p b = true
    · have hq : q b = false := by
        cases hqb : q b
        · rfl
        · exact absurd ⟨hp, hqb⟩ (hdisj b (List.mem_cons_self _ _))
      simp [List.filter_cons, hp, hq, hrec]
      omega
    · have hp' : p b = false := by simpa using hp
      by_cases hq : q b = true
      · simp [List.filter_cons, hp', hq, hrec]
        omega
      · have hq' : q b = false := by simpa using hq
        simp [List.filter_cons, hp', hq', hrec]

theorem length_filter_key_nodup {β : Type} (key : β → String) :
    ∀ (tabla : List β), (tabla.map key).Nodup → ∀ (k : String),
      (tabla.filter (fun b => key b == k)).length =
        if tabla.any (fun b => key b == k) then 1 else 0 := by
  intro tabla
  induction tabla with
  | nil => intro _ k; rfl
  | cons b resto ih =>
    intro hn k
    simp only [List.map_cons, List.nodup_cons] at hn
    by_cases hb : (key b == k) = true
    · have hub : ∀ c ∈ resto, (key c == k) = false := by
        intro c hc
        cases hck : key c == k
        · rfl
        · exfalso
          apply hn.1
          rw [List.mem_map]
          exact ⟨c, hc, by rw [eq_of_beq hck, ← eq_of_beq hb]⟩
      have hfil : resto.filter (fun c => key c == k) = [] :=
        List.filter_eq_nil_iff.mpr (fun c hc => by simp [hub c hc])
      simp [List.filter_cons, hb, List.any_cons, hfil]
    · have hb' : (key b == k) = false := by simpa using hb
      simp [List.filter_cons, hb', List.any_cons, ih hn.2 k]

theorem length_filter_contains {β : Type} (key : β → String) (tabla : List β)
    (htab : (tabla.map key).Nodup) :
    ∀ (ks : List String), ks.Nodup →
      (tabla.filter (fun b => ks.contains (key b))).length =
        (ks.filter (fun k => tabla.any (fun b => key b == k))).length := by
  intro ks
  induction ks with
  | nil => intro _; simp
  | cons k resto ih =>
    intro hks
    rw [List.nodup_cons] at hks
    have hco : ∀ b ∈ tabla,
        ((k :: resto).contains (key b)) = ((key b == k) || resto.contains (key b)) := by
      intro b _
      rw [List.contains_cons]
    have hsplit : (tabla.filter (fun b => (k :: resto).contains (key b))).length =
        (tabla.filter (fun b => key b == k)).length +
        (tabla.filter (fun b => resto.contains (key b))).length := by
      rw [List.filter_congr hco]
      apply length_filter_or_disjoint
      rintro b _ ⟨hb1, hb2⟩
      apply hks.1
      have hkey := eq_of_beq hb1
      rw [← hkey]
      simpa using hb2
    rw [hsplit, length_filter_key_nodup key tabla htab k, ih hks.2, List.filter_cons]
    by_cases hany : (tabla.any fun b => key b == k) = true
    · simp [hany, Nat.add_comm]
    · simp [hany]

/-! ### C4 — detail completeness -/

/-- C4 counterexample: in `dbC4` the gazette holds an RFC whose status
string is the literal sentinel "No encontrado"; the DOF-priority run counts
it as a match (`coincidencias = 1`) while the count of detail rows whose
`estado` differs from the sentinel is `0`, so the claimed equality fails. -/
theorem detail_completeness_counterexample :
    (realizar_conciliacion_dof_proveedores (fun _ => none) dbC4 1 "DOF + SAT").toOption.map
        (fun p => (p.1.coincidencias,
          ((nuevosDetalles dbC4 p.2).filter (fun d => d.estado != "No encontrado")).length))
      = some (1, 0) := by decide

/-- C4, amended: for every run of the three run-creating operations, the
number of detail rows referencing the run equals `rfcs_procesados` and
`coincidencias ≤ rfcs_procesados`; the number of detail rows whose `estado`
differs from the sentinel equals `coincidencias` — for the SAT-only variant
unconditionally, and for the DOF-priority variant and the excess-payment
variant under the proviso that no consulted directory row's status string
is the literal sentinel "No encontrado".  `hfresh` (no pre-existing detail
row references the id about to be assigned) mirrors primary-key freshness;
`hsatN` mirrors the unique constraint on `proveedores.rfc`. -/
theorem detail_completeness_amended :
    (∀ (fault : Nat → Option String) (db : DB) (tenantId : Nat) (tipo : String)
        (r : ResultadoConciliacion) (db' : DB),
        realizar_conciliacion fault db tenantId tipo = .ok (r, db') →
        (∀ d ∈ db.detalles, d.conciliacionId ≠ db.nextId) →
        ∃ h, db'.historial = db.historial ++ [h] ∧
          h.rfcsProcesados = r.rfcsProcesados ∧ h.coincidencias = r.coincidencias ∧
          (db'.detalles.filter (fun d => d.conciliacionId == h.id)).length
            = h.rfcsProcesados ∧
          ((db'.detalles.filter (fun d => d.conciliacionId == h.id)).filter
            (fun d => d.estado != "No encontrado")).length = h.coincidencias ∧
          h.coincidencias ≤ h.rfcsProcesados) ∧
    (∀ (fault : Nat → Option String) (db : DB) (tenantId : Nat) (tipo : String)
        (r : ResultadoConciliacion) (db' : DB),
        realizar_conciliacion_dof_proveedores fault db tenantId tipo = .ok (r, db') →
        (∀ d ∈ db.detalles, d.conciliacionId ≠ db.nextId) →
        (∀ g ∈ db.dof, g.situacionContribuyente ≠ "No encontrado") →
        (∀ p ∈ db.proveedores, p.situacionContribuyente ≠ "No encontrado") →
        ∃ h, db'.historial = db.historial ++ [h] ∧
          h.rfcsProcesados = r.rfcsProcesados ∧ h.coincidencias = r.coincidencias ∧
          (db'.detalles.filter (fun d => d.conciliacionId == h.id)).length
            = h.rfcsProcesados ∧
          ((db'.detalles.filter (fun d => d.conciliacionId == h.id)).filter
            (fun d => d.estado != "No encontrado")).length = h.coincidencias ∧
          h.coincidencias ≤ h.rfcsProcesados) ∧
    (∀ (db : DB) (tenantId : Nat) (rfcs : List String) (tipo : String)
        (hid : Nat) (db' : DB),
        conciliar_rfcs_especificos db tenantId rfcs tipo = .ok (hid, db') →
        (∀ d ∈ db.detalles, d.conciliacionId ≠ db.nextId) →
        (db.proveedores.map (fun p => p.rfc)).Nodup →
        (∀ p ∈ db.proveedores, p.situacionContribuyente ≠ "No encontrado") →
        ∃ h, db'.historial = db.historial ++ [h] ∧ h.id = hid ∧
          (db'.detalles.filter (fun d => d.conciliacionId == h.id)).length
            = h.rfcsProcesados ∧
          ((db'.detalles.filter (fun d => d.conciliacionId == h.id)).filter
            (fun d => d.estado != "No encontrado")).length = h.coincidencias ∧
          h.coincidencias ≤ h.rfcsProcesados) := by
  refine ⟨?_, ?_, ?_⟩
  · intro fault db tenantId tipo r db' hcall hfresh
    simp only [realizar_conciliacion] at hcall
    cases hf : fault tenantId with
    | some msg => rw [hf] at hcall; cases hcall
    | none =>
      cases hT : db.tenants.find? (fun t => t.id == tenantId) with
      | none => simp only [hf, hT] at hcall; cases hcall
      | some t =>
        simp only [hf, hT] at hcall
        injection hcall with hcall
        injection hcall with h1 h2
        subst h1; subst h2
        refine ⟨_, rfl, rfl, rfl, ?_, ?_, ?_⟩
        · rw [run_filter_ref db db.nextId _ _ _ hfresh]
          simp
        · rw [run_filter_ref db db.nextId _ _ _ hfresh, run_filter_sentinel]
        · refine le_trans (List.length_filter_le _ _) ?_
          simp
  · intro fault db tenantId tipo r db' hcall hfresh hdofClean hsatClean
    simp only [realizar_conciliacion_dof_proveedores] at hcall
    cases hf : fault tenantId with
    | some msg => rw [hf] at hcall; cases hcall
    | none =>
      cases hT : db.tenants.find? (fun t => t.id == tenantId) with
      | none => simp only [hf, hT] at hcall; cases hcall
      | some t =>
        simp only [hf, hT] at hcall
        split at hcall
        · cases hcall
        · injection hcall with hcall
          injection hcall with h1 h2
          subst h1; subst h2
          refine ⟨_, rfl, rfl, rfl, ?_, ?_, ?_⟩
          · rw [run_filter_ref db db.nextId _ _ _ hfresh]
            simp
          · rw [run_filter_ref db db.nextId _ _ _ hfresh, run_filter_sentinel]
            apply congrArg List.length
            apply List.filter_congr
            intro rfc _
            apply estadoDofSat_ne_sentinel
            · intro rfc' s hs
              simp only [dofDict] at hs
              obtain ⟨g, hg, _, hval⟩ := dictLast_map_some hs
              exact hval ▸ hdofClean g (List.mem_of_mem_filter hg)
            · intro rfc' s hs
              obtain ⟨p, hp, _, hval⟩ := dictLast_map_some hs
              exact hval ▸ hsatClean p (List.mem_of_mem_filter hp)
          · exact List.length_filter_le _ _
  · intro db tenantId rfcs tipo hid db' hcall hfresh hsatN hsatClean
    simp only [conciliar_rfcs_especificos] at hcall
    by_cases hemp : (List.insertionSort strLe ((rfcs.map normRfc).dedup)).isEmpty = true
    · rw [if_pos hemp] at hcall; cases hcall
    · rw [if_neg hemp] at hcall
      injection hcall with hcall
      injection hcall with h1 h2
      subst h1; subst h2
      have hnodup : (List.insertionSort strLe ((rfcs.map normRfc).dedup)).Nodup :=
        ((List.perm_insertionSort strLe _).nodup_iff).mpr (List.nodup_dedup _)
      refine ⟨_, rfl, rfl, ?_, ?_, ?_⟩
      · rw [run_filter_ref db db.nextId _ _ _ hfresh]
        simp
      · rw [run_filter_ref db db.nextId _ _ _ hfresh, run_filter_sentinel]
        rw [length_filter_contains (fun p => p.rfc) db.proveedores hsatN _ hnodup]
        apply congrArg List.length
        apply List.filter_congr
        intro rfc hrfc
        cases hs : dictLast ((db.proveedores.filter (fun p =>
            (List.insertionSort strLe ((rfcs.map normRfc).dedup)).contains p.rfc)).map
            (fun p => (p.rfc, p.situacionContribuyente))) rfc with
        | some s =>
          obtain ⟨p, hp, hkey, hval⟩ := dictLast_map_some hs
          have hclean := hsatClean p (List.mem_of_mem_filter hp)
          have hany : (db.proveedores.any fun b => b.rfc == rfc) = true := by
            rw [List.any_eq_true]
            exact ⟨p, List.mem_of_mem_filter hp, by simp [hkey]⟩
          simp [hs, hany, bne_iff_ne, hval ▸ hclean]
        | none =>
          have hany : (db.proveedores.any fun b => b.rfc == rfc) = false := by
            rw [Bool.eq_false_iff]
            intro hanyT
            rw [List.any_eq_true] at hanyT
            obtain ⟨p, hp, hpk⟩ := hanyT
            have hpmem : p ∈ db.proveedores.filter (fun p =>
                (List.insertionSort strLe ((rfcs.map normRfc).dedup)).contains p.rfc) := by
              rw [List.mem_filter]
              refine ⟨hp, ?_⟩
              rw [eq_of_beq hpk]
              simpa using hrfc
            have hpair : (p.rfc, p.situacionContribuyente) ∈
                (db.proveedores.filter (fun p =>
                  (List.insertionSort strLe ((rfcs.map normRfc).dedup)).contains p.rfc)).map
                (fun p => (p.rfc, p.situacionContribuyente)) :=
              List.mem_map.mpr ⟨p, hpmem, rfl⟩
            have hne := dictLast_ne_none_of_mem hpair
            rw [show (p.rfc, p.situacionContribuyente).1 = rfc from eq_of_beq hpk] at hne
            exact hne hs
          simp [hs, hany]
      · rw [length_filter_contains (fun p => p.rfc) db.proveedores hsatN _ hnodup]
        refine le_trans (List.length_filter_le _ _) ?_
        simp

/-- Witness for C4's amended statement, applied to `dbC4b` for all three
run-creating operations. -/
theorem detail_completeness_amended_witness :
    (match realizar_conciliacion (fun _ => none) dbC4b 1 "Manual" with
     | .ok (r, db') =>
       ∃ h, db'.historial = dbC4b.historial ++ [h] ∧
         h.rfcsProcesados = r.rfcsProcesados ∧ h.coincidencias = r.coincidencias ∧
         (db'.detalles.filter (fun d => d.conciliacionId == h.id)).length
           = h.rfcsProcesados ∧
         ((db'.detalles.filter (fun d => d.conciliacionId == h.id)).filter
           (fun d => d.estado != "No encontrado")).length = h.coincidencias ∧
         h.coincidencias ≤ h.rfcsProcesados
     | .error _ => False) ∧
    (match realizar_conciliacion_dof_proveedores (fun _ => none) dbC4b 1 "DOF + SAT" with
     | .ok (r, db') =>
       ∃ h, db'.historial = dbC4b.historial ++ [h] ∧
         h.rfcsProcesados = r.rfcsProcesados ∧ h.coincidencias = r.coincidencias ∧
         (db'.detalles.filter (fun d => d.conciliacionId == h.id)).length
           = h.rfcsProcesados ∧
         ((db'.detalles.filter (fun d => d.conciliacionId == h.id)).filter
           (fun d => d.estado != "No encontrado")).length = h.coincidencias ∧
         h.coincidencias ≤ h.rfcsProcesados
     | .error _ => False) ∧
    (match conciliar_rfcs_especificos dbC4b 1 ["AAA010101AA1", "BBB010101BB1"]
        "Excedentes - Pago" with
     | .ok (hid, db') =>
       ∃ h, db'.historial = dbC4b.historial ++ [h] ∧ h.id = hid ∧
         (db'.detalles.filter (fun d => d.conciliacionId == h.id)).length
           = h.rfcsProcesados ∧
         ((db'.detalles.filter (fun d => d.conciliacionId == h.id)).filter
           (fun d => d.estado != "No encontrado")).length = h.coincidencias ∧
         h.coincidencias ≤ h.rfcsProcesados
     | .error _ => False) := by
  refine ⟨?_, ?_, ?_⟩
  · cases hcall : realizar_conciliacion (fun _ => none) dbC4b 1 "Manual" with
    | error e =>
      have hok : (realizar_conciliacion (fun _ => none) dbC4b 1 "Manual").toOption.isSome
          = true := by decide
      rw [hcall] at hok
      cases hok
    | ok pr =>
      obtain ⟨r, db'⟩ := pr
      exact detail_completeness_amended.1 (fun _ => none) dbC4b 1 "Manual" r db'
        hcall (by decide)
  · cases hcall : realizar_conciliacion_dof_proveedores (fun _ => none) dbC4b 1
        "DOF + SAT" with
    | error e =>
      have hok : (realizar_conciliacion_dof_proveedores (fun _ => none) dbC4b 1
          "DOF + SAT").toOption.isSome = true := by decide
      rw [hcall] at hok
      cases hok
    | ok pr =>
      obtain ⟨r, db'⟩ := pr
      exact detail_completeness_amended.2.1 (fun _ => none) dbC4b 1 "DOF + SAT" r db'
        hcall (by decide) (by decide) (by decide)
  · cases hcall : conciliar_rfcs_especificos dbC4b 1 ["AAA010101AA1", "BBB010101BB1"]
        "Excedentes - Pago" with
    | error e =>
      have hok : (conciliar_rfcs_especificos dbC4b 1 ["AAA010101AA1", "BBB010101BB1"]
          "Excedentes - Pago").toOption.isSome = true := by decide
      rw [hcall] at hok
      cases hok
    | ok pr =>
      obtain ⟨hid, db'⟩ := pr
      exact detail_completeness_amended.2.2 dbC4b 1 ["AAA010101AA1", "BBB010101BB1"]
        "Excedentes - Pago" hid db' hcall (by decide) (by decide) (by decide)

/-! ### C3 — DOF priority -/

/-- C3: in a DOF-priority reconciliation, every in-quota RFC present in the
Gazette directory resolves to the Gazette's status unconditionally
(regardless of any Supplier-directory row for the same RFC — in particular,
for an RFC present in both directories with different statuses the recorded
status is the Gazette's, never the Supplier Directory's); an RFC not in the
Gazette resolves to its Supplier-directory status; an RFC in neither
resolves to the "No encontrado" sentinel.  The `Nodup` hypotheses mirror
the uniqueness of the per-RFC directory entries. -/
theorem dof_priority (db : DB) (tenantId : Nat) (t : Tenant) (tipo : String)
    (hT : db.tenants.find? (fun t => t.id == tenantId) = some t)
    (hne : seleccionEnCuota db tenantId (resolverLimite t) ≠ [])
    (hdofN : (db.dof.map (fun g => g.rfc)).Nodup)
    (hsatN : (db.proveedores.map (fun p => p.rfc)).Nodup) :
    ∃ r db', realizar_conciliacion_dof_proveedores (fun _ => none) db tenantId tipo
        = .ok (r, db') ∧
      (nuevosDetalles db db').map (fun d => d.rfc) =
        (seleccionEnCuota db tenantId (resolverLimite t)).map (fun m => m.rfc) ∧
      ∀ d ∈ nuevosDetalles db db',
        (∀ g ∈ db.dof, g.rfc = d.rfc → d.estado = g.situacionContribuyente) ∧
        ((∀ g ∈ db.dof, g.rfc ≠ d.rfc) →
          ∀ p ∈ db.proveedores, p.rfc = d.rfc → d.estado = p.situacionContribuyente) ∧
        ((∀ g ∈ db.dof, g.rfc ≠ d.rfc) → (∀ p ∈ db.proveedores, p.rfc ≠ d.rfc) →
          d.estado = "No encontrado") := by
  have hlen : ¬(((seleccionEnCuota db tenantId (resolverLimite t)).map
      (fun m => m.rfc)).length == 0) = true := by
    simp only [beq_iff_eq, List.length_map, List.length_eq_zero]
    exact hne
  simp only [realizar_conciliacion_dof_proveedores, hT]
  rw [if_neg hlen]
  refine ⟨_, _, rfl, ?_, ?_⟩
  · simp only [nuevosDetalles, List.drop_left]
    exact detalles_map_rfc _ _ _
  · intro d hd
    simp only [nuevosDetalles, List.drop_left, List.mem_map] at hd
    obtain ⟨rfc, hrfc, rfl⟩ := hd
    simp only
    refine ⟨?_, ?_, ?_⟩
    · intro g hg hgrfc
      have hgfil : g ∈ db.dof.filter (fun g =>
          ((seleccionEnCuota db tenantId (resolverLimite t)).map
            (fun m => m.rfc)).contains g.rfc) := by
        rw [List.mem_filter]
        refine ⟨hg, ?_⟩
        rw [hgrfc]
        simpa using hrfc
      have hkeys : (((db.dof.filter (fun g =>
          ((seleccionEnCuota db tenantId (resolverLimite t)).map
            (fun m => m.rfc)).contains g.rfc)).map
          (fun g => (g.rfc, g.situacionContribuyente))).map Prod.fst).Nodup := by
        rw [List.map_map]
        exact List.Nodup.sublist ((List.filter_sublist _).map _) hdofN
      have hpair : (rfc, g.situacionContribuyente) ∈
          (db.dof.filter (fun g =>
            ((seleccionEnCuota db tenantId (resolverLimite t)).map
              (fun m => m.rfc)).contains g.rfc)).map
          (fun g => (g.rfc, g.situacionContribuyente)) :=
        List.mem_map.mpr ⟨g, hgfil, by rw [hgrfc]⟩
      have hsome := dictLast_of_nodup hkeys hpair
      simp only [estadoDofSat, dofDict, hsome]
    · intro hnog p hp hprfc
      have hdofnone : dofDict db ((seleccionEnCuota db tenantId (resolverLimite t)).map
          (fun m => m.rfc)) rfc = none := by
        simp only [dofDict]
        rw [dictLast_eq_none]
        intro q hq
        simp only [List.mem_map] at hq
        obtain ⟨g, hgfil, rfl⟩ := hq
        exact hnog g (List.mem_of_mem_filter hgfil)
      have hpmem : p ∈ db.proveedores.filter (fun p =>
          (((seleccionEnCuota db tenantId (resolverLimite t)).map
            (fun m => m.rfc)).filter (fun rfc =>
              (dofDict db ((seleccionEnCuota db tenantId (resolverLimite t)).map
                (fun m => m.rfc)) rfc).isNone)).contains p.rfc) := by
        rw [List.mem_filter]
        refine ⟨hp, ?_⟩
        rw [hprfc]
        have hrfcmem : rfc ∈ ((seleccionEnCuota db tenantId (resolverLimite t)).map
            (fun m => m.rfc)).filter (fun rfc =>
              (dofDict db ((seleccionEnCuota db tenantId (resolverLimite t)).map
                (fun m => m.rfc)) rfc).isNone) := by
          rw [List.mem_filter]
          exact ⟨by simpa using hrfc, by simp [hdofnone]⟩
        simpa using hrfcmem
      have hkeys : (((db.proveedores.filter (fun p =>
          (((seleccionEnCuota db tenantId (resolverLimite t)).map
            (fun m => m.rfc)).filter (fun rfc =>
              (dofDict db ((seleccionEnCuota db tenantId (resolverLimite t)).map
                (fun m => m.rfc)) rfc).isNone)).contains p.rfc)).map
          (fun p => (p.rfc, p.situacionContribuyente))).map Prod.fst).Nodup := by
        rw [List.map_map]
        exact List.Nodup.sublist ((List.filter_sublist _).map _) hsatN
      have hpair : (rfc, p.situacionContribuyente) ∈
          (db.proveedores.filter (fun p =>
            (((seleccionEnCuota db tenantId (resolverLimite t)).map
              (fun m => m.rfc)).filter (fun rfc =>
                (dofDict db ((seleccionEnCuota db tenantId (resolverLimite t)).map
                  (fun m => m.rfc)) rfc).isNone)).contains p.rfc)).map
          (fun p => (p.rfc, p.situacionContribuyente)) :=
        List.mem_map.mpr ⟨p, hpmem, by rw [hprfc]⟩
      have hsome := dictLast_of_nodup hkeys hpair
      simp only [estadoDofSat, hdofnone, hsome]
    · intro hnog hnop
      have hdofnone : dofDict db ((seleccionEnCuota db tenantId (resolverLimite t)).map
          (fun m => m.rfc)) rfc = none := by
        simp only [dofDict]
        rw [dictLast_eq_none]
        intro q hq
        simp only [List.mem_map] at hq
        obtain ⟨g, hgfil, rfl⟩ := hq
        exact hnog g (List.mem_of_mem_filter hgfil)
      have hprovnone : dictLast ((db.proveedores.filter (fun p =>
          (((seleccionEnCuota db tenantId (resolverLimite t)).map
            (fun m => m.rfc)).filter (fun rfc =>
              (dofDict db ((seleccionEnCuota db tenantId (resolverLimite t)).map
                (fun m => m.rfc)) rfc).isNone)).contains p.rfc)).map
          (fun p => (p.rfc, p.situacionContribuyente))) rfc = none := by
        rw [dictLast_eq_none]
        intro q hq
        simp only [List.mem_map] at hq
        obtain ⟨p, hpfil, rfl⟩ := hq
        exact hnop p (List.mem_of_mem_filter hpfil)
      simp only [estadoDofSat, hdofnone, hprovnone]

/-- Witness for C3 at `dbC3`, whose RFC sits in both directories with
different statuses; the recorded status is the gazette's "Desvirtuado". -/
theorem dof_priority_witness :
    (∃ r db', realizar_conciliacion_dof_proveedores (fun _ => none) dbC3 1 "DOF + SAT"
        = .ok (r, db') ∧
      (nuevosDetalles dbC3 db').map (fun d => d.rfc) =
        (seleccionEnCuota dbC3 1 (resolverLimite ⟨1, true, some ⟨some 1⟩⟩)).map
          (fun m => m.rfc) ∧
      ∀ d ∈ nuevosDetalles dbC3 db',
        (∀ g ∈ dbC3.dof, g.rfc = d.rfc → d.estado = g.situacionContribuyente) ∧
        ((∀ g ∈ dbC3.dof, g.rfc ≠ d.rfc) →
          ∀ p ∈ dbC3.proveedores, p.rfc = d.rfc → d.estado = p.situacionContribuyente) ∧
        ((∀ g ∈ dbC3.dof, g.rfc ≠ d.rfc) → (∀ p ∈ dbC3.proveedores, p.rfc ≠ d.rfc) →
          d.estado = "No encontrado")) ∧
    (realizar_conciliacion_dof_proveedores (fun _ => none) dbC3 1 "DOF + SAT").toOption.map
        (fun p => (nuevosDetalles dbC3 p.2).map (fun d => d.estado)) =
      some ["Desvirtuado"] :=
  ⟨dof_priority dbC3 1 ⟨1, true, some ⟨some 1⟩⟩ "DOF + SAT"
    (by decide) (by decide) (by decide) (by decide), by decide⟩

/-! ### C2 — FIFO in-quota selection -/

/-- C2: for a tenant with plan limit `L` and more than `L` active
memberships (with distinct `created_at`, as the FIFO ordering presumes),
both reconciliation variants process exactly the `L` active memberships
with the `L` smallest `created_at` values: the selection has length `L`,
contains only active memberships of the tenant, every selected membership
is strictly older than every excluded active one, and both
`realizar_conciliacion` and the DOF-priority variant write exactly one
detail row per selected membership, in selection order. -/
theorem fifo_quota (db : DB) (tenantId : Nat) (L : Nat) (t : Tenant)
    (hdist : (proveedoresActivos db tenantId).Pairwise
      (fun a b => a.createdAt ≠ b.createdAt))
    (hlen : L < (proveedoresActivos db tenantId).length)
    (hT : db.tenants.find? (fun t => t.id == tenantId) = some t)
    (hlim : resolverLimite t = some L) :
    (seleccionEnCuota db tenantId (some L)).length = L ∧
    (∀ m ∈ seleccionEnCuota db tenantId (some L), m ∈ proveedoresActivos db tenantId) ∧
    (∀ m ∈ seleccionEnCuota db tenantId (some L),
      ∀ m' ∈ proveedoresActivos db tenantId,
        m' ∉ seleccionEnCuota db tenantId (some L) → m.createdAt < m'.createdAt) ∧
    (∀ tipo, ∃ r db',
      realizar_conciliacion (fun _ => none) db tenantId tipo = .ok (r, db') ∧
      r.rfcsProcesados = L ∧
      (nuevosDetalles db db').map (fun d => d.rfc) =
        (seleccionEnCuota db tenantId (some L)).map (fun m => m.rfc)) ∧
    (0 < L → ∀ tipo, ∃ r db',
      realizar_conciliacion_dof_proveedores (fun _ => none) db tenantId tipo
        = .ok (r, db') ∧
      r.rfcsProcesados = L ∧
      (nuevosDetalles db db').map (fun d => d.rfc) =
        (seleccionEnCuota db tenantId (some L)).map (fun m => m.rfc)) := by
  have hsorted : List.Sorted byCreated
      (List.insertionSort byCreated (proveedoresActivos db tenantId)) :=
    List.sorted_insertionSort byCreated (proveedoresActivos db tenantId)
  have hperm : List.Perm (List.insertionSort byCreated (proveedoresActivos db tenantId))
      (proveedoresActivos db tenantId) :=
    List.perm_insertionSort byCreated (proveedoresActivos db tenantId)
  have hdistS : (List.insertionSort byCreated (proveedoresActivos db tenantId)).Pairwise
      (fun a b => a.createdAt ≠ b.createdAt) :=
    (hperm.pairwise_iff (fun h => Ne.symm h)).mpr hdist
  have hlenS : L ≤ (List.insertionSort byCreated (proveedoresActivos db tenantId)).length := by
    rw [List.length_insertionSort]
    exact le_of_lt hlen
  have hsel : seleccionEnCuota db tenantId (some L) =
      (List.insertionSort byCreated (proveedoresActivos db tenantId)).take L := rfl
  have hlength : (seleccionEnCuota db tenantId (some L)).length = L := by
    rw [hsel, List.length_take]
    exact min_eq_left hlenS
  have hmem : ∀ m ∈ seleccionEnCuota db tenantId (some L),
      m ∈ proveedoresActivos db tenantId := by
    intro m hm
    rw [hsel] at hm
    exact hperm.mem_iff.mp (List.take_subset _ _ hm)
  have horden : ∀ m ∈ seleccionEnCuota db tenantId (some L),
      ∀ m' ∈ proveedoresActivos db tenantId,
        m' ∉ seleccionEnCuota db tenantId (some L) → m.createdAt < m'.createdAt := by
    intro m hm m' hm' hm'not
    rw [hsel] at hm hm'not
    have hm'S : m' ∈ (List.insertionSort byCreated (proveedoresActivos db tenantId)).take L ++
        (List.insertionSort byCreated (proveedoresActivos db tenantId)).drop L := by
      rw [List.take_append_drop]
      exact hperm.mem_iff.mpr hm'
    have hm'drop : m' ∈
        (List.insertionSort byCreated (proveedoresActivos db tenantId)).drop L := by
      rcases List.mem_append.mp hm'S with h | h
      · exact absurd h hm'not
      · exact h
    have hsorted' : ((List.insertionSort byCreated (proveedoresActivos db tenantId)).take L ++
        (List.insertionSort byCreated (proveedoresActivos db tenantId)).drop L).Pairwise
        byCreated := by
      rw [List.take_append_drop]
      exact hsorted
    have hdist' : ((List.insertionSort byCreated (proveedoresActivos db tenantId)).take L ++
        (List.insertionSort byCreated (proveedoresActivos db tenantId)).drop L).Pairwise
        (fun a b => a.createdAt ≠ b.createdAt) := by
      rw [List.take_append_drop]
      exact hdistS
    have hle := (List.pairwise_append.mp hsorted').2.2 m hm m' hm'drop
    have hne := (List.pairwise_append.mp hdist').2.2 m hm m' hm'drop
    exact Nat.lt_of_le_of_ne hle hne
  refine ⟨hlength, hmem, horden, ?_, ?_⟩
  · intro tipo
    simp only [realizar_conciliacion, hT, hlim]
    refine ⟨_, _, rfl, hlength, ?_⟩
    simp only [nuevosDetalles, List.drop_left, List.map_map]
    rfl
  · intro hL tipo
    have hlen0 : ¬(((seleccionEnCuota db tenantId (some L)).map
        (fun m => m.rfc)).length == 0) = true := by
      simp only [beq_iff_eq, List.length_map, hlength]
      omega
    simp only [realizar_conciliacion_dof_proveedores, hT, hlim]
    rw [if_neg hlen0]
    refine ⟨_, _, rfl, ?_, ?_⟩
    · simp only [List.length_map, hlength]
    · simp only [nuevosDetalles, List.drop_left]
      exact detalles_map_rfc _ _ _

/-- Witness for C2 at `dbC2` (limit 2, three active memberships): the two
oldest active memberships (ids 11 and 13) are the selection. -/
theorem fifo_quota_witness :
    ((seleccionEnCuota dbC2 1 (some 2)).length = 2 ∧
    (∀ m ∈ seleccionEnCuota dbC2 1 (some 2), m ∈ proveedoresActivos dbC2 1) ∧
    (∀ m ∈ seleccionEnCuota dbC2 1 (some 2),
      ∀ m' ∈ proveedoresActivos dbC2 1,
        m' ∉ seleccionEnCuota dbC2 1 (some 2) → m.createdAt < m'.createdAt) ∧
    (∀ tipo, ∃ r db',
      realizar_conciliacion (fun _ => none) dbC2 1 tipo = .ok (r, db') ∧
      r.rfcsProcesados = 2 ∧
      (nuevosDetalles dbC2 db').map (fun d => d.rfc) =
        (seleccionEnCuota dbC2 1 (some 2)).map (fun m => m.rfc)) ∧
    (0 < 2 → ∀ tipo, ∃ r db',
      realizar_conciliacion_dof_proveedores (fun _ => none) dbC2 1 tipo = .ok (r, db') ∧
      r.rfcsProcesados = 2 ∧
      (nuevosDetalles dbC2 db').map (fun d => d.rfc) =
        (seleccionEnCuota dbC2 1 (some 2)).map (fun m => m.rfc))) ∧
    (seleccionEnCuota dbC2 1 (some 2)).map (fun m => m.id) = [11, 13] :=
  ⟨fifo_quota dbC2 1 2 ⟨1, true, some ⟨some 2⟩⟩ (by decide) (by decide) (by decide) rfl,
   by decide⟩

/-- A successful SAT-only reconciliation appends exactly one historial row
and reports `estado = "completado"`. -/
theorem realizar_conciliacion_appends (fault : Nat → Option String) (d : DB)
    (tid : Nat) (tipo : String) (r : ResultadoConciliacion) (d' : DB)
    (h : realizar_conciliacion fault d tid tipo = .ok (r, d')) :
    (∃ hist, d'.historial = d.historial ++ [hist]) ∧ r.estado = "completado" := by
  cases hf : fault tid with
  | some msg => simp [realizar_conciliacion, hf] at h
  | none =>
    cases hT : d.tenants.find? (fun t => t.id == tid) with
    | none => simp [realizar_conciliacion, hf, hT] at h
    | some tenant =>
      simp only [realizar_conciliacion, hf, hT, Except.ok.injEq, Prod.mk.injEq] at h
      obtain ⟨hr, hd⟩ := h
      subst hr
      subst hd
      exact ⟨⟨_, rfl⟩, rfl⟩

/-- The behaviour of the shared fleet loop: one result entry per tenant, in
sequence; successes and failures partition the tenants; failed entries carry
the synthetic shape (zero counts, `"error: "` prefix, null run id) and
successful ones report `"completado"`; the final database's historial is the
initial one extended by exactly one row per success. -/
theorem procesarTenants_spec
    (conciliar : DB → Nat → Except String (ResultadoConciliacion × DB))
    (tipoError : String) (emailFault : Nat → Option String)
    (hC : ∀ d tid r d', conciliar d tid = .ok (r, d') →
      (∃ hist, d'.historial = d.historial ++ [hist]) ∧ r.estado = "completado")
    (tenants : List Tenant) :
    ∀ db : DB,
      (procesarTenants conciliar tipoError emailFault tenants db).1.length
          = tenants.length ∧
      (procesarTenants conciliar tipoError emailFault tenants db).2.1
          + (procesarTenants conciliar tipoError emailFault tenants db).2.2.1
          = tenants.length ∧
      (procesarTenants conciliar tipoError emailFault tenants db).1.map
          (fun x => x.tenantId) = tenants.map (fun t => t.id) ∧
      (∀ res ∈ (procesarTenants conciliar tipoError emailFault tenants db).1,
        (res.historialId = none →
          res.rfcsProcesados = 0 ∧ res.coincidencias = 0 ∧
          res.tipoConciliacion = tipoError ∧ res.versionSat = none ∧
          ∃ msg, res.estado = "error: " ++ msg) ∧
        (res.historialId ≠ none → res.estado = "completado")) ∧
      (∃ nuevos,
        (procesarTenants conciliar tipoError emailFault tenants db).2.2.2.1.historial
            = db.historial ++ nuevos ∧
        nuevos.length = (procesarTenants conciliar tipoError emailFault tenants db).2.1) := by
  induction tenants with
  | nil =>
    intro db
    refine ⟨rfl, rfl, rfl, ?_, ⟨[], by simp [procesarTenants], rfl⟩⟩
    intro res hres
    simp [procesarTenants] at hres
  | cons t resto ih =>
    intro db
    cases hc : conciliar db t.id with
    | ok pr =>
      obtain ⟨r, db1⟩ := pr
      obtain ⟨⟨hist, hgrow⟩, hestado⟩ := hC db t.id r db1 hc
      obtain ⟨ih1, ih2, ih3, ih4, nuevos, ih5, ih6⟩ := ih db1
      simp only [procesarTenants, hc]
      refine ⟨?_, ?_, ?_, ?_, ?_⟩
      · simp [ih1]
      · simp only [List.length_cons]
        omega
      · simp [ih3]
      · intro res hres
        rcases List.mem_cons.mp hres with hres | hres
        · subst hres
          constructor
          · intro hnone
            exact absurd hnone (by simp)
          · intro _
            exact hestado
        · exact ih4 res hres
      · refine ⟨hist :: nuevos, ?_, ?_⟩
        · rw [ih5, hgrow]
          simp
        · simp [ih6]
    | error e =>
      obtain ⟨ih1, ih2, ih3, ih4, nuevos, ih5, ih6⟩ := ih db
      simp only [procesarTenants, hc]
      refine ⟨?_, ?_, ?_, ?_, ⟨nuevos, ih5, ih6⟩⟩
      · simp [ih1]
      · simp only [List.length_cons]
        omega
      · simp [ih3]
      · intro res hres
        rcases List.mem_cons.mp hres with hres | hres
        · subst hres
          constructor
          · intro _
            exact ⟨rfl, rfl, rfl, rfl, e, rfl⟩
          · intro hcontra
            exact absurd rfl hcontra
        · exact ih4 res hres

/-- The notification oracle influences only the outbox: results, counters
and the final database are identical under any two email-fault oracles. -/
theorem procesarTenants_email_indep
    (conciliar : DB → Nat → Except String (ResultadoConciliacion × DB))
    (tipoError : String) (ef1 ef2 : Nat → Option String) (tenants : List Tenant) :
    ∀ db : DB,
      (procesarTenants conciliar tipoError ef1 tenants db).1
          = (procesarTenants conciliar tipoError ef2 tenants db).1 ∧
      (procesarTenants conciliar tipoError ef1 tenants db).2.1
          = (procesarTenants conciliar tipoError ef2 tenants db).2.1 ∧
      (procesarTenants conciliar tipoError ef1 tenants db).2.2.1
          = (procesarTenants conciliar tipoError ef2 tenants db).2.2.1 ∧
      (procesarTenants conciliar tipoError ef1 tenants db).2.2.2.1
          = (procesarTenants conciliar tipoError ef2 tenants db).2.2.2.1 := by
  induction tenants with
  | nil =>
    intro db
    exact ⟨rfl, rfl, rfl, rfl⟩
  | cons t resto ih =>
    intro db
    cases hc : conciliar db t.id with
    | ok pr =>
      obtain ⟨r, db1⟩ := pr
      obtain ⟨h1, h2, h3, h4⟩ := ih db1
      simp only [procesarTenants, hc]
      exact ⟨by rw [h1], by rw [h2], h3, h4⟩
    | error e =>
      obtain ⟨h1, h2, h3, h4⟩ := ih db
      simp only [procesarTenants, hc]
      exact ⟨by rw [h1], h2, by rw [h3], h4⟩

/-- C5: the fleet runner processes the active tenants sequentially (the
result entries list exactly the active tenants, in order); the aggregate
satisfies `total_exitosos + total_fallidos = total_tenants` and
`total_procesados = resultados.length`; a tenant whose reconciliation threw
gets a synthetic entry with zero counts, `estado = "error: <message>"` and a
null run id while the others are unaffected (`"completado"` entries); the
final database's historial is the initial one plus exactly one run per
successful tenant (failed tenants roll back, persisting nothing); and a
notification failure changes neither the aggregate nor the database. -/
theorem fleet_isolation (fault emailFault : Nat → Option String) (db : DB) :
    ((realizar_conciliacion_todos_tenants fault emailFault db).1.totalExitosos
        + (realizar_conciliacion_todos_tenants fault emailFault db).1.totalFallidos
        = (realizar_conciliacion_todos_tenants fault emailFault db).1.totalTenants) ∧
    ((realizar_conciliacion_todos_tenants fault emailFault db).1.totalProcesados
        = (realizar_conciliacion_todos_tenants fault emailFault db).1.resultados.length) ∧
    ((realizar_conciliacion_todos_tenants fault emailFault db).1.totalTenants
        = (db.tenants.filter (fun t => t.activo)).length) ∧
    ((realizar_conciliacion_todos_tenants fault emailFault db).1.resultados.map
        (fun x => x.tenantId)
        = (db.tenants.filter (fun t => t.activo)).map (fun t => t.id)) ∧
    (∀ res ∈ (realizar_conciliacion_todos_tenants fault emailFault db).1.resultados,
      (res.historialId = none →
        res.rfcsProcesados = 0 ∧ res.coincidencias = 0 ∧
        ∃ msg, res.estado = "error: " ++ msg) ∧
      (res.historialId ≠ none → res.estado = "completado")) ∧
    (∃ nuevos,
      (realizar_conciliacion_todos_tenants fault emailFault db).2.1.historial
          = db.historial ++ nuevos ∧
      nuevos.length
          = (realizar_conciliacion_todos_tenants fault emailFault db).1.totalExitosos) ∧
    (∀ ef : Nat → Option String,
      (realizar_conciliacion_todos_tenants fault ef db).1
          = (realizar_conciliacion_todos_tenants fault emailFault db).1 ∧
      (realizar_conciliacion_todos_tenants fault ef db).2.1
          = (realizar_conciliacion_todos_tenants fault emailFault db).2.1) := by
  have hmain := procesarTenants_spec
    (fun d tid => realizar_conciliacion fault d tid "Automatica") "Automatica" emailFault
    (fun d tid r d' hcall => realizar_conciliacion_appends fault d tid "Automatica" r d' hcall)
    (db.tenants.filter (fun t => t.activo)) db
  have hind := fun ef => procesarTenants_email_indep
    (fun d tid => realizar_conciliacion fault d tid "Automatica") "Automatica"
    ef emailFault (db.tenants.filter (fun t => t.activo)) db
  simp only [realizar_conciliacion_todos_tenants]
  by_cases h0 : ((db.tenants.filter (fun t => t.activo)).length == 0) = true
  · have hnil : db.tenants.filter (fun t => t.activo) = [] :=
      List.length_eq_zero.mp (by simpa using h0)
    rw [hnil]
    refine ⟨by simp, by simp, by simp, by simp, by simp, ⟨[], by simp, by simp⟩, by simp⟩
  · have h0' : ((db.tenants.filter (fun t => t.activo)).length == 0) = false := by
      simpa using h0
    simp only [h0', Bool.false_eq_true, if_false]
    obtain ⟨hm1, hm2, hm3, hm4, nuevos, hm5, hm6⟩ := hmain
    refine ⟨hm2, trivial, trivial, hm3, ?_, ⟨nuevos, hm5, hm6⟩, ?_⟩
    · intro res hres
      obtain ⟨he1, he2⟩ := hm4 res hres
      exact ⟨fun h => ⟨(he1 h).1, (he1 h).2.1, (he1 h).2.2.2.2⟩, he2⟩
    · intro ef
      obtain ⟨hi1, hi2, hi3, hi4⟩ := hind ef
      constructor
      · rw [hi1, hi2, hi3]
      · exact hi4

/-- Witness for C5: the P7 scenario at `dbC5` — three active tenants with
tenant `2`'s reconciliation made to throw yields `total_exitosos = 2`,
`total_fallidos = 1`, tenants `1` and `3` persisted (run ids 500 and 501)
and the synthetic error entry for tenant `2`. -/
theorem fleet_isolation_witness :
    ((realizar_conciliacion_todos_tenants faultC5 (fun _ => none) dbC5).1.totalExitosos
        + (realizar_conciliacion_todos_tenants faultC5 (fun _ => none) dbC5).1.totalFallidos
        = (realizar_conciliacion_todos_tenants faultC5 (fun _ => none) dbC5).1.totalTenants) ∧
    (realizar_conciliacion_todos_tenants faultC5 (fun _ => none) dbC5).1.totalExitosos = 2 ∧
    (realizar_conciliacion_todos_tenants faultC5 (fun _ => none) dbC5).1.totalFallidos = 1 ∧
    (realizar_conciliacion_todos_tenants faultC5 (fun _ => none) dbC5).1.resultados.map
        (fun x => (x.tenantId, x.estado, x.historialId))
        = [(1, "completado", some 500), (2, "error: fallo de base de datos", none),
           (3, "completado", some 501)] ∧
    ((realizar_conciliacion_todos_tenants faultC5 (fun _ => none) dbC5).2.1.historial.map
        (fun h => h.tenantId)) = [1, 3] :=
  ⟨(fleet_isolation faultC5 (fun _ => none) dbC5).1, by decide, by decide, by decide, by decide⟩

/-- A cons whose key equals the lookup key and occurs in no later pair is
the last-wins winner. -/
theorem dictLast_cons_self {α : Type} (k : String) (v : α) (l : List (String × α))
    (h : ∀ q ∈ l, q.1 ≠ k) : dictLast ((k, v) :: l) k = some v := by
  simp only [dictLast]
  rw [dictLast_eq_none.mpr h]
  simp

/-- A cons whose key differs from the lookup key does not change the
lookup. -/
theorem dictLast_cons_ne {α : Type} (k' : String) (v : α) (l : List (String × α))
    {k : String} (h : k' ≠ k) : dictLast ((k', v) :: l) k = dictLast l k := by
  simp only [dictLast]
  cases hr : dictLast l k with
  | some w => rfl
  | none => simp [h]

/-- When every RFC is new, the classification loop stages the first
`lb - a` RFCs active, the rest inactive, and reports nothing existing. -/
theorem clasificarNuevos_all_new (existente : String → Option TenantProveedor)
    (razonDe : String → Option String) (lb : Nat) :
    ∀ (rfcs : List String) (a : Nat),
      (∀ rfc ∈ rfcs, existente rfc = none) →
      clasificarNuevos existente razonDe lb rfcs a =
        ((rfcs.take (lb - a)).map (fun rfc => ⟨rfc, razonDe rfc, true⟩),
         (rfcs.drop (lb - a)).map (fun rfc => ⟨rfc, razonDe rfc, false⟩),
         ([] : List ResultadoRfc)) := by
  intro rfcs
  induction rfcs with
  | nil =>
    intro a _
    simp [clasificarNuevos]
  | cons rfc resto ih =>
    intro a hall
    have hrfc : existente rfc = none := hall rfc (List.mem_cons_self _ _)
    have hresto : ∀ r ∈ resto, existente r = none :=
      fun r hr => hall r (List.mem_cons_of_mem _ hr)
    simp only [clasificarNuevos, hrfc]
    by_cases hlt : a < lb
    · rw [if_pos hlt, ih (a + 1) hresto]
      have hk : lb - a = (lb - (a + 1)) + 1 := by omega
      rw [hk]
      simp [List.take_succ_cons, List.drop_succ_cons]
    · rw [if_neg hlt, ih a hresto]
      have hk : lb - a = 0 := by omega
      rw [hk]
      simp

/-- Folding equation for the staged-items abbreviation. -/
theorem nuevosEnOrden_def (razonDe : String → Option String) (k : Nat)
    (rfcs : List String) :
    (rfcs.take k).map (fun rfc => (⟨rfc, razonDe rfc, true⟩ : NuevoProveedor)) ++
      (rfcs.drop k).map (fun rfc => (⟨rfc, razonDe rfc, false⟩ : NuevoProveedor)) =
    nuevosEnOrden razonDe k rfcs := rfl

/-- The staged items keep exactly the input RFCs, in order. -/
theorem nuevosEnOrden_map_rfc (razonDe : String → Option String) (k : Nat)
    (rfcs : List String) :
    (nuevosEnOrden razonDe k rfcs).map (fun nu => nu.rfc) = rfcs := by
  simp only [nuevosEnOrden, List.map_append, List.map_map]
  have h1 : ((fun nu : NuevoProveedor => nu.rfc) ∘
      (fun rfc => (⟨rfc, razonDe rfc, true⟩ : NuevoProveedor))) = fun rfc => rfc := rfl
  have h2 : ((fun nu : NuevoProveedor => nu.rfc) ∘
      (fun rfc => (⟨rfc, razonDe rfc, false⟩ : NuevoProveedor))) = fun rfc => rfc := rfl
  rw [h1, h2, List.map_id', List.map_id', List.take_append_drop]

/-- The intermediate result rows keep exactly the staged RFCs, in order. -/
theorem resultadosEsperados_map_rfc :
    ∀ (nuevos : List NuevoProveedor) (n : Nat),
      (resultadosEsperados n nuevos).map (fun r => r.rfc) =
        nuevos.map (fun nu => nu.rfc) := by
  intro nuevos
  induction nuevos with
  | nil => intro n; rfl
  | cons nuevo resto ih =>
    intro n
    simp [resultadosEsperados, ih (n + 1)]

/-- The per-item result construction of the batch-add, looked up through the
dict of freshly created rows, yields the stringified consecutive ids and the
burst advisory exactly on inactive items. -/
theorem resultadosNuevos_eq (tenantId : Nat) :
    ∀ (nuevos : List NuevoProveedor) (n : Nat),
      (nuevos.map (fun nu => nu.rfc)).Nodup →
      nuevos.map (fun nuevo =>
        match dictLast ((crearRelaciones tenantId n nuevos).map (fun m => (m.rfc, m)))
            nuevo.rfc with
        | some rel =>
          ResultadoRfc.mk nuevo.rfc (toString rel.id)
            (if nuevo.activo then none
             else some "RFC agregado como INACTIVO (límite de burst alcanzado)")
        | none => ResultadoRfc.mk nuevo.rfc "" (some "Error creando relación")) =
      resultadosEsperados n nuevos := by
  intro nuevos
  induction nuevos with
  | nil => intro n _; rfl
  | cons nuevo resto ih =>
    intro n hnodup
    simp only [List.map_cons, List.nodup_cons] at hnodup
    have hkeys : ∀ q ∈ (crearRelaciones tenantId (n + 1) resto).map
        (fun m => (m.rfc, m)), q.1 ≠ nuevo.rfc := by
      intro q hq
      simp only [List.mem_map] at hq
      obtain ⟨m, hm, hqm⟩ := hq
      subst hqm
      intro hcontra
      exact hnodup.1 (hcontra ▸ mem_map_rfc_of_mem_crearRelaciones hm)
    simp only [crearRelaciones, List.map_cons, resultadosEsperados]
    congr 1
    · rw [dictLast_cons_self nuevo.rfc
        (⟨n, tenantId, nuevo.rfc, nuevo.razonSocial, nuevo.activo, n⟩ : TenantProveedor)
        ((crearRelaciones tenantId (n + 1) resto).map (fun m => (m.rfc, m))) hkeys]
    · refine (List.map_congr_left ?_).trans (ih (n + 1) hnodup.2)
      intro x hx
      have hne : nuevo.rfc ≠ x.rfc := by
        intro hcontra
        exact hnodup.1 (hcontra ▸ List.mem_map_of_mem _ hx)
      rw [dictLast_cons_ne nuevo.rfc
        (⟨n, tenantId, nuevo.rfc, nuevo.razonSocial, nuevo.activo, n⟩ : TenantProveedor)
        ((crearRelaciones tenantId (n + 1) resto).map (fun m => (m.rfc, m))) hne]

/-- Re-ordering a result list by mapping its own key list through its own
last-wins dict reproduces the list when the keys are distinct. -/
theorem resultadosOrdenados_eq :
    ∀ (rs : List ResultadoRfc) (keys : List String),
      keys = rs.map (fun r => r.rfc) →
      (rs.map (fun r => r.rfc)).Nodup →
      keys.map (fun rfc =>
        (dictLast (rs.map (fun r => (r.rfc, r))) rfc).getD
          (ResultadoRfc.mk rfc "" (some "RFC no procesado"))) = rs := by
  intro rs
  induction rs with
  | nil =>
    intro keys hk _
    subst hk
    rfl
  | cons r rest ih =>
    intro keys hk hnodup
    subst hk
    simp only [List.map_cons, List.nodup_cons] at hnodup ⊢
    congr 1
    · have hkeys2 : ∀ q ∈ rest.map (fun r => (r.rfc, r)), q.1 ≠ r.rfc := by
        intro q hq
        simp only [List.mem_map] at hq
        obtain ⟨x, hx, hqx⟩ := hq
        subst hqx
        intro hcontra
        exact hnodup.1 (hcontra ▸ List.mem_map_of_mem _ hx)
      rw [dictLast_cons_self r.rfc r (rest.map (fun r => (r.rfc, r))) hkeys2]
      rfl
    · refine (List.map_congr_left ?_).trans (ih _ rfl hnodup.2)
      intro rfc hrfc
      have hne : r.rfc ≠ rfc := by
        intro hcontra
        exact hnodup.1 (hcontra ▸ hrfc)
      rw [dictLast_cons_ne r.rfc r (rest.map (fun r => (r.rfc, r))) hne]

/-- The spec-side result rule coincides with the intermediate
characterisation over the staged items. -/
theorem reglaBurstResultados_eq (lb : Nat) (razonDe : String → Option String) :
    ∀ (rfcs : List String) (a n : Nat),
      reglaBurstResultados lb rfcs a n =
        resultadosEsperados n (nuevosEnOrden razonDe (lb - a) rfcs) := by
  intro rfcs
  induction rfcs with
  | nil =>
    intro a n
    simp [reglaBurstResultados, resultadosEsperados, nuevosEnOrden]
  | cons rfc resto ih =>
    intro a n
    by_cases hlt : a < lb
    · have hk : lb - a = (lb - (a + 1)) + 1 := by omega
      rw [hk]
      simp only [reglaBurstResultados, if_pos hlt, nuevosEnOrden, List.take_succ_cons,
        List.drop_succ_cons, List.map_cons, List.cons_append, resultadosEsperados]
      have hih := ih (a + 1) (n + 1)
      simp only [nuevosEnOrden] at hih
      simp [hih]
    · have hk : lb - a = 0 := by omega
      rw [hk]
      have hih := ih a (n + 1)
      rw [hk] at hih
      simp only [nuevosEnOrden, List.take_zero, List.map_nil, List.nil_append,
        List.drop_zero] at hih ⊢
      simp only [reglaBurstResultados, if_neg hlt, List.map_cons, resultadosEsperados]
      simp [hih]

/-- The spec-side staged rows coincide with the repository insertions over
the staged items. -/
theorem reglaBurstCreadas_eq (tenantId lb : Nat) (razonDe : String → Option String) :
    ∀ (rfcs : List String) (a n : Nat),
      crearRelaciones tenantId n (nuevosEnOrden razonDe (lb - a) rfcs) =
        reglaBurstCreadas tenantId lb razonDe rfcs a n := by
  intro rfcs
  induction rfcs with
  | nil =>
    intro a n
    simp [crearRelaciones, reglaBurstCreadas, nuevosEnOrden]
  | cons rfc resto ih =>
    intro a n
    by_cases hlt : a < lb
    · have hk : lb - a = (lb - (a + 1)) + 1 := by omega
      rw [hk]
      simp only [nuevosEnOrden, List.take_succ_cons, List.drop_succ_cons, List.map_cons,
        List.cons_append, crearRelaciones, reglaBurstCreadas, if_pos hlt]
      have hih := ih (a + 1) (n + 1)
      simp only [nuevosEnOrden] at hih
      simp only [List.append_eq]
      rw [hih]
    · have hk : lb - a = 0 := by omega
      rw [hk]
      have hih := ih a (n + 1)
      rw [hk] at hih
      simp only [nuevosEnOrden, List.take_zero, List.map_nil, List.nil_append,
        List.drop_zero] at hih ⊢
      simp only [List.map_cons, crearRelaciones, reglaBurstCreadas, if_neg hlt]
      simp [hih]

/-- The spec-side staged rows are one per input RFC. -/
theorem reglaBurstCreadas_length (tenantId lb : Nat) (razonDe : String → Option String) :
    ∀ (rfcs : List String) (a n : Nat),
      (reglaBurstCreadas tenantId lb razonDe rfcs a n).length = rfcs.length := by
  intro rfcs
  induction rfcs with
  | nil => intro a n; rfl
  | cons rfc resto ih =>
    intro a n
    by_cases hlt : a < lb
    · simp [reglaBurstCreadas, if_pos hlt, ih (a + 1) (n + 1)]
    · simp [reglaBurstCreadas, if_neg hlt, ih a (n + 1)]

/-- C1: for an existing tenant, when every normalised input RFC is new for
the tenant and the normalised RFCs are distinct, the batch-add never fails:
it returns exactly the rows prescribed by the spec's decision rule — the
new RFCs processed in normalised input order with consecutive fresh ids,
each created active (incrementing the running counter) while the active
count is strictly below the burst ceiling `B = L + floor(L * 0.15)` and
created inactive with the burst advisory afterwards — and the database
gains exactly the corresponding membership rows. -/
theorem burst_batch_add (db : DB) (tenantId : Nat) (proveedores : List ProveedorInput)
    (limiteRfcs : Nat) (tenant : Tenant)
    (hT : db.tenants.find? (fun t => t.id == tenantId) = some tenant)
    (hnew : db.memberships.filter (fun m => m.tenantId == tenantId &&
      (rfcsNormalizados proveedores).contains m.rfc) = [])
    (hnodup : (rfcsNormalizados proveedores).Nodup) :
    agregar_proveedores_batch db tenantId proveedores limiteRfcs =
      .ok (reglaBurstResultados (limiteBurst limiteRfcs) (rfcsNormalizados proveedores)
             (totalActivosDe db tenantId) db.nextId,
           { db with
               memberships := db.memberships ++
                 reglaBurstCreadas tenantId (limiteBurst limiteRfcs)
                   (fun rfc => dictLast (razonSocialPares proveedores) rfc)
                   (rfcsNormalizados proveedores) (totalActivosDe db tenantId) db.nextId
               nextId := db.nextId + (rfcsNormalizados proveedores).length }) := by
  cases hE : (rfcsNormalizados proveedores).isEmpty with
  | true =>
    have hnil : rfcsNormalizados proveedores = [] := by
      simpa using hE
    simp [agregar_proveedores_batch, hnil, reglaBurstResultados, reglaBurstCreadas]
  | false =>
    simp only [agregar_proveedores_batch, hE, Bool.false_eq_true, if_false, hT, hnew,
      List.map_nil, List.nil_append]
    rw [clasificarNuevos_all_new (fun rfc => dictLast [] rfc)
      (fun rfc => dictLast (razonSocialPares proveedores) rfc) (limiteBurst limiteRfcs)
      (rfcsNormalizados proveedores) (totalActivosDe db tenantId) (fun _ _ => rfl)]
    simp only [nuevosEnOrden_def, List.nil_append]
    have hmap : (nuevosEnOrden (fun rfc => dictLast (razonSocialPares proveedores) rfc)
        (limiteBurst limiteRfcs - totalActivosDe db tenantId)
        (rfcsNormalizados proveedores)).map (fun nu => nu.rfc) =
        rfcsNormalizados proveedores := nuevosEnOrden_map_rfc _ _ _
    have hnodupN : ((nuevosEnOrden (fun rfc => dictLast (razonSocialPares proveedores) rfc)
        (limiteBurst limiteRfcs - totalActivosDe db tenantId)
        (rfcsNormalizados proveedores)).map (fun nu => nu.rfc)).Nodup := by
      rw [hmap]
      exact hnodup
    rw [resultadosNuevos_eq tenantId _ db.nextId hnodupN]
    have hkeysR : rfcsNormalizados proveedores =
        (resultadosEsperados db.nextId
          (nuevosEnOrden (fun rfc => dictLast (razonSocialPares proveedores) rfc)
            (limiteBurst limiteRfcs - totalActivosDe db tenantId)
            (rfcsNormalizados proveedores))).map (fun r => r.rfc) := by
      rw [resultadosEsperados_map_rfc, hmap]
    have hnodupR : ((resultadosEsperados db.nextId
        (nuevosEnOrden (fun rfc => dictLast (razonSocialPares proveedores) rfc)
          (limiteBurst limiteRfcs - totalActivosDe db tenantId)
          (rfcsNormalizados proveedores))).map (fun r => r.rfc)).Nodup := by
      rw [resultadosEsperados_map_rfc, hmap]
      exact hnodup
    rw [resultadosOrdenados_eq _ _ hkeysR hnodupR]
    rw [reglaBurstCreadas_eq tenantId (limiteBurst limiteRfcs)
      (fun rfc => dictLast (razonSocialPares proveedores) rfc)
      (rfcsNormalizados proveedores) (totalActivosDe db tenantId) db.nextId]
    rw [reglaBurstCreadas_length tenantId (limiteBurst limiteRfcs)
      (fun rfc => dictLast (razonSocialPares proveedores) rfc)
      (rfcsNormalizados proveedores) (totalActivosDe db tenantId) db.nextId]
    rw [reglaBurstResultados_eq (limiteBurst limiteRfcs)
      (fun rfc => dictLast (razonSocialPares proveedores) rfc)
      (rfcsNormalizados proveedores) (totalActivosDe db tenantId) db.nextId]

/-- Witness for C1: the claim's scenario at `dbC1` — limit 20 (so the burst
ceiling is 23), zero pre-existing active memberships, 24 new RFCs: the call
succeeds, the first 23 result rows are active (no error) and the 24th is
inactive with the burst advisory. -/
theorem burst_batch_add_witness :
    agregar_proveedores_batch dbC1 1 provsC1 20 =
      .ok (reglaBurstResultados (limiteBurst 20) (rfcsNormalizados provsC1)
             (totalActivosDe dbC1 1) dbC1.nextId,
           { dbC1 with
               memberships := dbC1.memberships ++
                 reglaBurstCreadas 1 (limiteBurst 20)
                   (fun rfc => dictLast (razonSocialPares provsC1) rfc)
                   (rfcsNormalizados provsC1) (totalActivosDe dbC1 1) dbC1.nextId
               nextId := dbC1.nextId + (rfcsNormalizados provsC1).length }) ∧
    (rfcsNormalizados provsC1).length = 24 ∧
    limiteBurst 20 = 23 ∧
    (reglaBurstResultados (limiteBurst 20) (rfcsNormalizados provsC1)
        (totalActivosDe dbC1 1) dbC1.nextId).map (fun r => r.error.isNone) =
      List.replicate 23 true ++ [false] ∧
    (reglaBurstCreadas 1 (limiteBurst 20)
        (fun rfc => dictLast (razonSocialPares provsC1) rfc)
        (rfcsNormalizados provsC1) (totalActivosDe dbC1 1) dbC1.nextId).map
        (fun m => m.activo) =
      List.replicate 23 true ++ [false] ∧
    ((reglaBurstResultados (limiteBurst 20) (rfcsNormalizados provsC1)
        (totalActivosDe dbC1 1) dbC1.nextId).getLast?.map (fun r => r.error)) =
      some (some "RFC agregado como INACTIVO (límite de burst alcanzado)") :=
  ⟨burst_batch_add dbC1 1 provsC1 20 ⟨1, true, none⟩ (by decide) (by decide) (by decide),
   by decide, by decide, by decide, by decide, by decide⟩

end Conciliacion
